import Mathlib

/-!
# Verification of the rpi-screen-service core against its specification

Shallow embedding of the Rust sources of `rpi-screen-service` (exponential
backoff policy, ICS calendar parser, debt-page extractor, OJP transit
request/response handling, screen-content hashing and the updater write-back
logic), together with theorems settling the specification claims.

Conventions:
* Rust `tokio::time::Duration` values are modelled as natural numbers of
  seconds (all durations in the sources are whole seconds).
* Rust `tokio::time::Instant` values are natural numbers of seconds on a
  monotonic clock; `chrono` UTC timestamps are integers of Unix seconds.
* Fallible Rust functions returning `Result<T, Box<dyn Error>>` are modelled
  as `Except String T`, with the error strings following the `format!`
  templates of the source.
-/

deriving instance DecidableEq for Except

set_option maxRecDepth 100000

namespace RpiScreen

/-! ## Exponential backoff (src/exponential_backoff.rs)

`tokio::time::Duration` is modelled as a natural number (of nanoseconds in
general; all the claims only use whole-second values, where `from_secs n`
is `n` seconds; multiplication by 2 and `min` agree with Rust `Duration`
semantics on the model). -/

/-- Model of `ExponentialBackoff` from src/exponential_backoff.rs. -/
structure ExponentialBackoff where
  base_duration : Nat
  first_error_duration : Nat
  max_error_duration : Nat
  current_duration : Nat
  is_error : Bool
deriving DecidableEq, Repr

namespace ExponentialBackoff

/-- `ExponentialBackoff::new` -/
def new (base_duration first_error_duration max_error_duration : Nat) :
    ExponentialBackoff :=
  { base_duration, first_error_duration, max_error_duration,
    current_duration := base_duration, is_error := false }

/-- `ExponentialBackoff::get_is_error` -/
def get_is_error (b : ExponentialBackoff) : Bool := b.is_error

/-- `ExponentialBackoff::get_current_duration` -/
def get_current_duration (b : ExponentialBackoff) : Nat := b.current_duration

/-- `ExponentialBackoff::set_error` -/
def set_error (b : ExponentialBackoff) : ExponentialBackoff :=
  if !b.is_error then
    { b with is_error := true, current_duration := b.first_error_duration }
  else
    { b with current_duration := min (b.current_duration * 2) b.max_error_duration }

/-- `ExponentialBackoff::set_success` -/
def set_success (b : ExponentialBackoff) : ExponentialBackoff :=
  if b.is_error then
    { b with is_error := false, current_duration := b.base_duration }
  else
    b

end ExponentialBackoff

/-! ## Timestamps

Model of `prost_types::Timestamp` (UTC instants) and of the two fixed
`chrono::NaiveDateTime::parse_from_str` grammars used by the sources:
`"%Y-%m-%dT%H:%M:%SZ"` (transit) and `"%Y%m%dT%H%M%SZ"` (calendar).  The
model reads the year as exactly four digits and validates the calendar
fields the way `chrono` does (months 1–12, days within the month including
leap years, hours < 24, minutes and seconds < 60). -/

/-- Model of `prost_types::Timestamp`: Unix seconds plus nanoseconds.  All
timestamps produced by the sources have `nanos = 0`. -/
structure Timestamp where
  seconds : Int
  nanos : Int := 0
deriving DecidableEq, Repr

/-- Reads one decimal digit. -/
def readDigit (c : Char) : Option Nat :=
  if '0' ≤ c ∧ c ≤ '9' then some (c.toNat - 48) else none

/-- Reads exactly `n` decimal digits from the front of `cs`, returning the
decoded number and the remaining characters. -/
def readDigits : Nat → Nat → List Char → Option (Nat × List Char)
  | 0, acc, cs => some (acc, cs)
  | n + 1, acc, c :: cs =>
    match readDigit c with
    | some d => readDigits n (acc * 10 + d) cs
    | none => none
  | _ + 1, _, [] => none

/-- Consumes an expected literal character. -/
def expectChar (c : Char) : List Char → Option (List Char)
  | x :: rest => if x = c then some rest else none
  | [] => none

/-- Gregorian leap-year rule. -/
def isLeapYear (y : Nat) : Bool :=
  y % 4 = 0 && (y % 100 ≠ 0 || y % 400 = 0)

/-- Days in a month of the proleptic Gregorian calendar. -/
def daysInMonth (y mo : Nat) : Nat :=
  if mo = 2 then (if isLeapYear y then 29 else 28)
  else if mo = 4 ∨ mo = 6 ∨ mo = 9 ∨ mo = 11 then 30
  else 31

/-- Calendar-field validity as checked by `chrono` during parsing. -/
def validDateTime (y mo d h mi s : Nat) : Bool :=
  1 ≤ mo && mo ≤ 12 && 1 ≤ d && d ≤ daysInMonth y mo && h ≤ 23 && mi ≤ 59 && s ≤ 59

/-- The six parsed calendar fields: year, month, day, hour, minute, second. -/
abbrev DateFields := Nat × Nat × Nat × Nat × Nat × Nat

/-- Model of `chrono::NaiveDateTime::parse_from_str` for the two fixed
formats of the sources.  `sep = true` parses `"%Y-%m-%dT%H:%M:%SZ"`,
`sep = false` parses `"%Y%m%dT%H%M%SZ"`.  Returns `none` on any grammar or
calendar-validity violation (both are `chrono` parse errors). -/
def parseDateTimeFields (sep : Bool) (t : String) : Option DateFields := do
  let cs := t.data
  let (y, cs) ← readDigits 4 0 cs
  let cs ← if sep then expectChar '-' cs else pure cs
  let (mo, cs) ← readDigits 2 0 cs
  let cs ← if sep then expectChar '-' cs else pure cs
  let (d, cs) ← readDigits 2 0 cs
  let cs ← expectChar 'T' cs
  let (h, cs) ← readDigits 2 0 cs
  let cs ← if sep then expectChar ':' cs else pure cs
  let (mi, cs) ← readDigits 2 0 cs
  let cs ← if sep then expectChar ':' cs else pure cs
  let (s, cs) ← readDigits 2 0 cs
  let cs ← expectChar 'Z' cs
  if cs = [] ∧ validDateTime y mo d h mi s then
    some (y, mo, d, h, mi, s)
  else
    none

/-- Days between a proleptic-Gregorian civil date and 1970-01-01 (Howard
Hinnant's `days_from_civil` algorithm, shifted by 400 years so that the
era arithmetic stays in `Nat`; one 400-year era is exactly 146097 days). -/
def daysFromCivil (y mo d : Nat) : Int :=
  let yAdj : Nat := if mo ≤ 2 then y + 399 else y + 400
  let era : Nat := yAdj / 400
  let yoe : Nat := yAdj - era * 400
  let mp : Nat := if 2 < mo then mo - 3 else mo + 9
  let doy : Nat := (153 * mp + 2) / 5 + d - 1
  let doe : Nat := yoe * 365 + yoe / 4 - yoe / 100 + doy
  (era : Int) * 146097 + (doe : Int) - 146097 - 719468

/-- Model of `prost_types::Timestamp::date_time` on already-validated
calendar fields: succeeds for years 1–9999 (the RFC 3339 range accepted by
`prost`), returning the Unix-epoch timestamp. -/
def dateTimeToTs (y mo d h mi s : Nat) : Option Timestamp :=
  if 1 ≤ y ∧ y ≤ 9999 then
    some { seconds := daysFromCivil y mo d * 86400 + (h * 3600 + mi * 60 + s : Nat) }
  else
    none

/-- The error message both updaters attach to a `chrono` parse failure
(source template: `"ICS timestamp parsing error {:?} parsing '{}'"`; the
`{:?}` debug payload of the `chrono` error is elided in the model). -/
def chronoParseErrMsg (t : String) : String :=
  "ICS timestamp parsing error parsing '" ++ t ++ "'"

/-- The error message attached to a `prost` timestamp-creation failure
(source template: `"Proto timestamp creation error: {:?}"`). -/
def protoCreationErrMsg : String := "Proto timestamp creation error"

/-! ## Calendar updater parsing (src/gcal_updater.rs) -/

/-- Model of the generated proto message `CalendarEvent`. -/
structure CalendarEvent where
  event_title : String := ""
  event_start : Option Timestamp := none
deriving DecidableEq, Repr

/-- `line.strip_prefix(tag)` succeeds: `tag` starts the line. -/
def hasTag (tag s : String) : Bool := tag.data.isPrefixOf s.data

/-- The remainder of the line after `tag` (the value `strip_prefix` returns). -/
def afterTag (tag s : String) : String := ⟨s.data.drop tag.data.length⟩

/-- The line loop of `parse_next_event` from src/gcal_updater.rs, carrying
the pending `first_upcoming_event` record. -/
def parseNextEventGo (acc : Option CalendarEvent) :
    List String → Except String (Option CalendarEvent)
  | [] => Except.ok acc
  | line :: rest =>
    if line = "END:VEVENT" then Except.ok acc
    else if hasTag "SUMMARY:" line then
      parseNextEventGo
        (some { acc.getD {} with event_title := afterTag "SUMMARY:" line }) rest
    else if hasTag "DTSTART:" line then
      let ts := afterTag "DTSTART:" line
      match parseDateTimeFields false ts with
      | none => Except.error (chronoParseErrMsg ts)
      | some (y, mo, d, h, mi, s) =>
        match dateTimeToTs y mo d h mi s with
        | none => Except.error protoCreationErrMsg
        | some t =>
          parseNextEventGo (some { acc.getD {} with event_start := some t }) rest
    else parseNextEventGo acc rest

/-- `parse_next_event` from src/gcal_updater.rs.  The input is the line
list of the ICS body (Rust `ics.lines()`). -/
def parse_next_event (lines : List String) : Except String (Option CalendarEvent) :=
  parseNextEventGo none lines

/-! ## Kitty debt extraction (src/kitty_updater.rs)

The HTML document is abstracted at the output of the `scraper` selector
`div[class="transaction-text"]`: the input of `extract_debts` is the list of
selected elements, each given as its list of text nodes (Rust
`element.text().collect::<Vec<_>>()`).  `Html::parse_document` never fails
(it is an error-recovering HTML5 parser) and the selector is a constant
valid selector, so this abstraction loses no failure path. -/

/-- Model of Rust `str::contains(pat)` (substring containment). -/
def listContainsSub (pat : List Char) : List Char → Bool
  | [] => pat.isPrefixOf []
  | c :: rest => pat.isPrefixOf (c :: rest) || listContainsSub pat rest

/-- `s.contains(pat)` for strings. -/
def strContains (s pat : String) : Bool := listContainsSub pat.data s.data

/-- ASCII whitespace (the only whitespace appearing in the modelled pages). -/
def isSpaceChar (c : Char) : Bool := c = ' ' ∨ c = '\t' ∨ c = '\n' ∨ c = '\r'

/-- Model of Rust `str::trim`. -/
def strTrim (s : String) : String :=
  ⟨((s.data.dropWhile isSpaceChar).reverse.dropWhile isSpaceChar).reverse⟩

/-- Replaces every occurrence of `pat` by the empty string, scanning left to
right (model of Rust `str::replace(pat, "")`); the fuel argument starts at
the input length and bounds the scan. -/
def replaceAllGo (pat : List Char) : Nat → List Char → List Char
  | _, [] => []
  | 0, cs => cs
  | fuel + 1, c :: cs =>
    if pat.isPrefixOf (c :: cs) ∧ pat ≠ [] then
      replaceAllGo pat fuel ((c :: cs).drop pat.length)
    else
      c :: replaceAllGo pat fuel cs

/-- `s.replace(pat, "")` for strings. -/
def strReplace (s pat : String) : String :=
  ⟨replaceAllGo pat.data s.data.length s.data⟩

/-- Model of Rust `str::parse::<f32>` on the decimal grammar
(optional sign, integer and/or fractional digits, optional exponent).  The
value is kept as an exact rational; binary32 rounding is not modelled (the
claims only use success/failure of the parse and the sign of the value,
which rounding preserves at the inputs considered).  The `inf`/`nan`
spellings accepted by Rust are not modelled. -/
def parseF32 (s : String) : Option Rat :=
  let (neg, cs) :=
    match s.data with
    | '-' :: cs => (true, cs)
    | '+' :: cs => (false, cs)
    | cs => (false, cs)
  let (ip, cs) := cs.span Char.isDigit
  let (fp, cs) :=
    match cs with
    | '.' :: cs' => cs'.span Char.isDigit
    | _ => ([], cs)
  if ip = [] ∧ fp = [] then none
  else
    let digitsVal : List Char → Nat := fun ds =>
      ds.foldl (fun a c => a * 10 + (c.toNat - 48)) 0
    let mant : Rat := mkRat (digitsVal ip * 10 ^ fp.length + digitsVal fp) (10 ^ fp.length)
    match cs with
    | [] => some (if neg then Rat.neg mant else mant)
    | e :: cs' =>
      if e = 'e' ∨ e = 'E' then
        let (eneg, cs'') :=
          match cs' with
          | '-' :: cs'' => (true, cs'')
          | '+' :: cs'' => (false, cs'')
          | cs'' => (false, cs'')
        let (ed, cs3) := cs''.span Char.isDigit
        if ed = [] ∨ cs3 ≠ [] then none
        else
          let v := if eneg then mkRat mant.num (mant.den * 10 ^ digitsVal ed)
                   else Rat.mul mant (mkRat ((10 : Int) ^ digitsVal ed) 1)
          some (if neg then Rat.neg v else v)
      else none

/-- Model of the generated proto message `KittyDebt`.  `how_much` is the
parsed amount as an exact rational (Rust `f32`). -/
structure KittyDebt where
  who : String
  how_much : Rat
  whom : String
deriving DecidableEq, Repr

/-- `extract_debt` from src/kitty_updater.rs, on the text nodes of one
`transaction-text` element. -/
def extract_debt (texts : List String) : Except String KittyDebt :=
  match texts.find? (fun t => strContains t " gives ") with
  | none => Except.error "no text node contained 'gives'"
  | some who_text =>
    let who := strTrim (strReplace who_text " gives ")
    match texts.findSome? (fun t => parseF32 (strTrim t)) with
    | none => Except.error "no text field was parseable into a float"
    | some how_much =>
      match texts.find? (fun t => strContains t " to ") with
      | none => Except.error "no text node contained 'to'"
      | some whom_text =>
        let whom := strTrim (strReplace whom_text " to ")
        if who = "" ∨ whom = "" then
          Except.error ("either who ('" ++ who ++ "') or whom ('" ++ whom ++ "') was empty")
        else
          Except.ok { who, how_much, whom }

/-- `extract_debts` from src/kitty_updater.rs.  The failure message elides
the body size and parser diagnostics interpolated by the source. -/
def extract_debts (elements : List (List String)) : Except String (List KittyDebt) :=
  let debts := elements.filterMap fun t => (extract_debt t).toOption
  if debts.isEmpty then
    Except.error "No debts found on page"
  else
    Except.ok debts

/-! ## Transit updater (src/transport_updater.rs)

The XML response is abstracted at the `quick_xml::Reader::read_event`
interface: the input of `extract_departures` is the stream of events the
reader yields.  `text` events carry the already-unescaped text node;
`readErr` stands for `Err(_)` results of `read_event` (malformed XML).
Comments, CData and processing instructions fall under the same handling as
any event that is neither a start, an end nor a text node, so the four
constructors cover all behaviours of the source. -/

/-- Modelled from the spec: the proto enum `DestinationEnum` (the
`screen_service.proto` file is not part of src/).  The spec calls it "a
small closed enumeration"; the sources and tests use the names `FLON` and
`RENENS`, and proto3 enums carry a zero default. -/
inductive DestinationEnum
  | DEST_UNSPECIFIED
  | FLON
  | RENENS
deriving DecidableEq, Repr

/-- Modelled from the spec: the proto `i32` value of each enum variant. -/
def DestinationEnum.toInt : DestinationEnum → Int
  | .DEST_UNSPECIFIED => 0
  | .FLON => 1
  | .RENENS => 2

/-- Modelled from the spec: prost's generated `DestinationEnum::from_str_name`. -/
def DestinationEnum.from_str_name (s : String) : Option DestinationEnum :=
  if s = "DEST_UNSPECIFIED" then some .DEST_UNSPECIFIED
  else if s = "FLON" then some .FLON
  else if s = "RENENS" then some .RENENS
  else none

/-- Config message `DestinationPoints`: physical stop IDs mapped to one
logical destination name. -/
structure DestinationPoints where
  stops : List Nat
  destination_name : String
deriving DecidableEq, Repr

/-- Config message `TransportConfig`. -/
structure TransportConfig where
  url : String := ""
  api_key : String := ""
  stop_id : Nat := 0
  destination_points : List DestinationPoints := []
deriving DecidableEq, Repr

/-- Model of the generated proto message `Departure`.  The proto stores the
enum as an `i32`; the model keeps the enum itself (`toInt` gives the wire
value). -/
structure Departure where
  destination_enum : DestinationEnum
  departure_time : Option Timestamp
deriving DecidableEq, Repr

/-- One event of the `quick_xml` pull reader. -/
inductive XEvent
  | start (name : String)
  | close (name : String)
  | text (s : String)
  | eof
  | readErr
deriving DecidableEq, Repr

/-- `get_time` from src/transport_updater.rs: parses an OJP timestamp text
node (`"%Y-%m-%dT%H:%M:%SZ"`) into a proto timestamp. -/
def get_time (t : String) : Except String Timestamp :=
  match parseDateTimeFields true t with
  | none => Except.error (chronoParseErrMsg t)
  | some (y, mo, d, h, mi, s) =>
    match dateTimeToTs y mo d h mi s with
    | none => Except.error protoCreationErrMsg
    | some ts => Except.ok ts

/-- Model of Rust `str::parse::<u32>`: optional `+`, decimal digits, value
below `2^32`. -/
def parseU32 (s : String) : Option Nat :=
  let cs := match s.data with
    | '+' :: cs => cs
    | cs => cs
  if cs ≠ [] ∧ cs.all Char.isDigit then
    let v := cs.foldl (fun a c => a * 10 + (c.toNat - 48)) 0
    if v < 4294967296 then some v else none
  else none

/-- The partially built departure record (`DepartureBuilder`). -/
structure DepartureBuilder where
  departure_time : Option Timestamp := none
  dest_id : Option Nat := none
deriving DecidableEq, Repr

/-- The departures accumulator: model of the `HashMap<i32, Departure>`
keyed by the destination enum, as an association list with
insert-overwrite. -/
abbrev DepartureMap := List (DestinationEnum × Departure)

/-- Insert-or-overwrite at a key. -/
def mapInsert (m : DepartureMap) (k : DestinationEnum) (v : Departure) : DepartureMap :=
  match m with
  | [] => [(k, v)]
  | (k', v') :: rest =>
    if k' = k then (k, v) :: rest else (k', v') :: mapInsert rest k v

/-- Lookup (`HashMap::get`). -/
def mapGet (m : DepartureMap) (k : DestinationEnum) : Option Departure :=
  (m.find? fun p => p.1 = k).map Prod.snd

/-- The dedup-by-destination insertion of `extract_departures`: a new
candidate `(en, ts)` replaces an existing entry only if it departs
earlier.  An existing entry without a timestamp aborts the attempt (the
source `break`s); entries are only ever inserted with a timestamp, so that
branch is unreachable from an empty map. -/
def insertEarlier (m : DepartureMap) (en : DestinationEnum) (ts : Timestamp) : DepartureMap :=
  match mapGet m en with
  | none => mapInsert m en { destination_enum := en, departure_time := some ts }
  | some existing =>
    match existing.departure_time with
    | none => m
    | some t0 =>
      if t0.seconds > ts.seconds then
        mapInsert m en { destination_enum := en, departure_time := some ts }
      else m

/-- The per-destination loop run at each `</ojp:StopEventResult>` with a
complete builder: the first configured destination owning the stop ID wins;
an unknown destination name aborts the loop without inserting. -/
def processStopEvent (dests : List DestinationPoints) (dest_id : Nat) (ts : Timestamp)
    (m : DepartureMap) : DepartureMap :=
  match dests with
  | [] => m
  | dest :: rest =>
    if dest.stops.any fun stop => stop = dest_id then
      match DestinationEnum.from_str_name dest.destination_name with
      | none => m
      | some en => insertEarlier m en ts
    else processStopEvent rest dest_id ts m

/-- Final collection of the map's departures (`departures.iter().map(...)`;
the Rust `HashMap` iteration order is unspecified, the model uses insertion
order). -/
def finishDepartures (m : DepartureMap) : List Departure := m.map Prod.snd

/-- The event loop of `extract_departures` from src/transport_updater.rs.
Both reader errors and `Eof` break the loop, returning the departures
collected so far; grammar failures of a destination-stop-ID text node
break it likewise; only `get_time` failures (propagated by `?`) produce an
error.  The loop consumes at least one event per iteration, so it is
driven by a fuel counter of at least the stream length; exhausted fuel is
only reachable on the exhausted stream and returns the same value as the
empty-stream case. -/
def extractGo (config : TransportConfig) : Nat → DepartureBuilder → DepartureMap →
    List XEvent → Except String (List Departure)
  | 0, _, m, _ => Except.ok (finishDepartures m)
  | fuel + 1, b, m, events =>
    match events with
    | [] => Except.ok (finishDepartures m)
    | XEvent.readErr :: _ => Except.ok (finishDepartures m)
    | XEvent.eof :: _ => Except.ok (finishDepartures m)
    | XEvent.start name :: rest =>
      if name = "ojp:TimetabledTime" ∨ name = "ojp:EstimatedTime" then
        match rest with
        | XEvent.text t :: rest' =>
          match get_time t with
          | Except.error e => Except.error e
          | Except.ok ts =>
            extractGo config fuel { b with departure_time := some ts } m rest'
        | _ :: rest' => extractGo config fuel b m rest'
        | [] => Except.ok (finishDepartures m)
      else if name = "ojp:DestinationStopPointRef" then
        match rest with
        | XEvent.text t :: rest' =>
          match parseU32 t with
          | none => Except.ok (finishDepartures m)
          | some id => extractGo config fuel { b with dest_id := some id } m rest'
        | _ :: rest' => extractGo config fuel b m rest'
        | [] => Except.ok (finishDepartures m)
      else if name = "ojp:PublishedLineName" ∨ name = "ojp:DestinationText" then
        match rest with
        | _ :: _ :: rest' => extractGo config fuel b m rest'
        | _ => Except.ok (finishDepartures m)
      else extractGo config fuel b m rest
    | XEvent.close name :: rest =>
      if name = "ojp:StopEventResult" then
        match b with
        | { departure_time := some ts, dest_id := some id } =>
          extractGo config fuel b (processStopEvent config.destination_points id ts m) rest
        | _ => extractGo config fuel b m rest
      else extractGo config fuel b m rest
    | XEvent.text _ :: rest => extractGo config fuel b m rest

/-- `extract_departures` from src/transport_updater.rs, over the reader's
event stream.  The stream length bounds the iteration count, so it is a
sufficient fuel. -/
def extract_departures (events : List XEvent) (config : TransportConfig) :
    Except String (List Departure) :=
  extractGo config events.length {} [] events

/-- The destination the per-destination loop of `extract_departures`
resolves a stop ID to: the first configured destination owning the stop,
through `from_str_name` (a characterization of `processStopEvent`, used to
state which candidate departures compete for a destination). -/
def destFor (dests : List DestinationPoints) (id : Nat) : Option DestinationEnum :=
  match dests with
  | [] => none
  | dest :: rest =>
    if dest.stops.any fun stop => stop = id then
      DestinationEnum.from_str_name dest.destination_name
    else destFor rest id

/-- The reader events of one well-formed `StopEventResult` entry carrying a
timetabled time and a destination stop reference. -/
def mkStopEventBlock (tt idStr : String) : List XEvent :=
  [XEvent.start "ojp:StopEventResult",
   XEvent.start "ojp:TimetabledTime", XEvent.text tt, XEvent.close "ojp:TimetabledTime",
   XEvent.start "ojp:DestinationStopPointRef", XEvent.text idStr,
   XEvent.close "ojp:DestinationStopPointRef",
   XEvent.close "ojp:StopEventResult"]

/-- The reader events of one well-formed `StopEventResult` entry carrying a
timetabled time, a later estimated time, and a destination stop
reference. -/
def mkStopEventBlockTTET (tt et idStr : String) : List XEvent :=
  [XEvent.start "ojp:StopEventResult",
   XEvent.start "ojp:TimetabledTime", XEvent.text tt, XEvent.close "ojp:TimetabledTime",
   XEvent.start "ojp:EstimatedTime", XEvent.text et, XEvent.close "ojp:EstimatedTime",
   XEvent.start "ojp:DestinationStopPointRef", XEvent.text idStr,
   XEvent.close "ojp:DestinationStopPointRef",
   XEvent.close "ojp:StopEventResult"]

/-- A whole response stream made of well-formed `StopEventResult` entries:
each item pairs the two text nodes of a block with the timestamp and stop
ID they are to parse to. -/
def blocksOf (pairs : List ((String × String) × (Timestamp × Nat))) : List XEvent :=
  (pairs.map fun p => mkStopEventBlock p.1.1 p.1.2).flatten

/-- The accumulated departure map after a sequence of completed
`StopEventResult` entries with the given (time, stop ID) data. -/
def departuresOfPairs (dests : List DestinationPoints)
    (pairs : List (Timestamp × Nat)) : DepartureMap :=
  pairs.foldl (fun m p => processStopEvent dests p.2 p.1 m) []

/-- The departure seconds stored for a destination. -/
def mapGetSeconds (m : DepartureMap) (en : DestinationEnum) : Option Int :=
  (mapGet m en).bind fun d => d.departure_time.map fun ts => ts.seconds

/-- The departure seconds of the candidate entries competing for a
destination. -/
def candSeconds (dests : List DestinationPoints)
    (pairs : List (Timestamp × Nat)) (en : DestinationEnum) : List Int :=
  pairs.filterMap fun p =>
    if destFor dests p.2 = some en then some p.1.seconds else none

/-- Earliest-wins accumulation of candidate seconds. -/
def stepMin (acc : Option Int) (x : Int) : Option Int :=
  some (match acc with
        | none => x
        | some y => min y x)

/-- The keys of the departure map. -/
def mapKeys (m : DepartureMap) : List DestinationEnum := m.map Prod.fst

/-- Invariant of the departures accumulator: every entry's value carries
its key as destination and a timestamp, and keys are distinct. -/
def WFDepartureMap (m : DepartureMap) : Prop :=
  (∀ p ∈ m, ∃ ts, p.2 = { destination_enum := p.1, departure_time := some ts }) ∧
    (mapKeys m).Nodup

/-! ### Outbound OJP request (src/transport_updater.rs, `create_ojp_request`) -/

/-- One decimal digit character. -/
def digitChar (d : Nat) : Char := Char.ofNat (48 + d % 10)

/-- Decimal digits of `n`, most significant first (fuel-driven; the fuel
`n + 1` always suffices). -/
def natDigitsAux : Nat → Nat → List Char → List Char
  | 0, _, acc => acc
  | fuel + 1, n, acc =>
    if n < 10 then digitChar n :: acc
    else natDigitsAux fuel (n / 10) (digitChar (n % 10) :: acc)

/-- Rust `u32`/`Display` decimal rendering. -/
def natToStr (n : Nat) : String := ⟨natDigitsAux (n + 1) n []⟩

/-- Zero-pad on the left to width `w`. -/
def padZeros (w : Nat) (cs : List Char) : List Char :=
  List.replicate (w - cs.length) '0' ++ cs

/-- `chrono` numeric field, zero-padded to width `w`. -/
def padNum (w n : Nat) : String := ⟨padZeros w (natDigitsAux (n + 1) n [])⟩

/-- A wall-clock instant as used by `create_ojp_request`
(`chrono::DateTime<Utc>` at millisecond precision). -/
structure OjpInstant where
  year : Nat
  month : Nat
  day : Nat
  hour : Nat
  minute : Nat
  second : Nat
  ms : Nat
deriving DecidableEq, Repr

/-- `now.format("%Y-%m-%dT%H:%M:%S%.3fZ")`. -/
def formatOjpInstant (t : OjpInstant) : String :=
  padNum 4 t.year ++ "-" ++ padNum 2 t.month ++ "-" ++ padNum 2 t.day ++ "T" ++
    padNum 2 t.hour ++ ":" ++ padNum 2 t.minute ++ ":" ++ padNum 2 t.second ++
    "." ++ padNum 3 t.ms ++ "Z"

/-- Template segment before the first `RequestTimestamp` value. -/
def ojpPart1 : String :=
  "<?xml version=\"1.0\" encoding=\"UTF-8\"?>\n<OJP xmlns:xsi=\"http://www.w3.org/2001/XMLSchema-instance\" xmlns:xsd=\"http://www.w3.org/2001/XMLSchema\" xmlns=\"http://www.siri.org.uk/siri\" version=\"1.0\" xmlns:ojp=\"http://www.vdv.de/ojp\" xsi:schemaLocation=\"http://www.siri.org.uk/siri ../ojp-xsd-v1.0/OJP.xsd\">\n    <OJPRequest>\n        <ServiceRequest>\n            <RequestTimestamp>"

/-- Template segment between the two `RequestTimestamp` values. -/
def ojpPart2 : String :=
  "</RequestTimestamp>\n            <RequestorRef>raspi-screen-server</RequestorRef>\n            <ojp:OJPStopEventRequest>\n                <RequestTimestamp>"

/-- Template segment before the `StopPlaceRef` value. -/
def ojpPart3 : String :=
  "</RequestTimestamp>\n                <ojp:Location>\n                    <ojp:PlaceRef>\n                        <StopPlaceRef>"

/-- Template segment before the `DepArrTime` value. -/
def ojpPart4 : String :=
  "</StopPlaceRef>\n                        <ojp:LocationName>\n                            <ojp:Text>ignored</ojp:Text>\n                        </ojp:LocationName>\n                    </ojp:PlaceRef>\n                    <ojp:DepArrTime>"

/-- Template segment after the `DepArrTime` value. -/
def ojpPart5 : String :=
  "</ojp:DepArrTime>\n                </ojp:Location>\n                <ojp:Params>\n                    <ojp:NumberOfResults>10</ojp:NumberOfResults>\n                    <ojp:StopEventType>departure</ojp:StopEventType>\n                    <ojp:IncludeRealtimeData>true</ojp:IncludeRealtimeData>\n                </ojp:Params>\n            </ojp:OJPStopEventRequest>\n        </ServiceRequest>\n    </OJPRequest>\n</OJP>\n"

/-- The serialized request of the repository's own `makes_request` test
(stop 123 at 2024-07-26T09:42:09.123Z). -/
def ojpGoldenRequest : String :=
  "<?xml version=\"1.0\" encoding=\"UTF-8\"?>\n<OJP xmlns:xsi=\"http://www.w3.org/2001/XMLSchema-instance\" xmlns:xsd=\"http://www.w3.org/2001/XMLSchema\" xmlns=\"http://www.siri.org.uk/siri\" version=\"1.0\" xmlns:ojp=\"http://www.vdv.de/ojp\" xsi:schemaLocation=\"http://www.siri.org.uk/siri ../ojp-xsd-v1.0/OJP.xsd\">\n    <OJPRequest>\n        <ServiceRequest>\n            <RequestTimestamp>2024-07-26T09:42:09.123Z</RequestTimestamp>\n            <RequestorRef>raspi-screen-server</RequestorRef>\n            <ojp:OJPStopEventRequest>\n                <RequestTimestamp>2024-07-26T09:42:09.123Z</RequestTimestamp>\n                <ojp:Location>\n                    <ojp:PlaceRef>\n                        <StopPlaceRef>123</StopPlaceRef>\n                        <ojp:LocationName>\n                            <ojp:Text>ignored</ojp:Text>\n                        </ojp:LocationName>\n                    </ojp:PlaceRef>\n                    <ojp:DepArrTime>2024-07-26T09:42:09.123Z</ojp:DepArrTime>\n                </ojp:Location>\n                <ojp:Params>\n                    <ojp:NumberOfResults>10</ojp:NumberOfResults>\n                    <ojp:StopEventType>departure</ojp:StopEventType>\n                    <ojp:IncludeRealtimeData>true</ojp:IncludeRealtimeData>\n                </ojp:Params>\n            </ojp:OJPStopEventRequest>\n        </ServiceRequest>\n    </OJPRequest>\n</OJP>\n"

/-- `create_ojp_request` from src/transport_updater.rs: the `format!` call
with the timestamp interpolated three times and the stop ID once. -/
def create_ojp_request (config : TransportConfig) (now : OjpInstant) : String :=
  let now_utc_string := formatOjpInstant now
  ojpPart1 ++ now_utc_string ++ ojpPart2 ++ now_utc_string ++ ojpPart3 ++
    natToStr config.stop_id ++ ojpPart4 ++ now_utc_string ++ ojpPart5

/-! ### Transit polling schedule (src/transport_updater.rs) -/

/-- `i64::MAX`, the sort key of a departure without a timestamp. -/
def i64Max : Int := 9223372036854775807

/-- The `sort_by_key` key of a departure. -/
def departureSortKey (d : Departure) : Int :=
  match d.departure_time with
  | some t => t.seconds
  | none => i64Max

/-- `departures.sort_by_key(...)`: stable ascending sort by key. -/
def sortDepartures (deps : List Departure) : List Departure :=
  deps.mergeSort fun a b => departureSortKey a ≤ departureSortKey b

/-- `get_default_next_update_time`: ten minutes from now. -/
def get_default_next_update_time (now_i : Nat) : Nat := now_i + 600

/-- `get_duration_to_next_departure`: `now_i` is the monotonic instant
(`Instant::now()`), `now_utc` the wall clock (`Utc::now().timestamp()`).
`u64::try_from` of a negative difference is the error path. -/
def get_duration_to_next_departure (next_departure : Option Departure)
    (offset : Nat) (now_i : Nat) (now_utc : Int) : Except String Nat :=
  match next_departure with
  | none => Except.error "No next departure"
  | some d =>
    match d.departure_time with
    | none => Except.error "No next departure"
    | some ts =>
      let diff := ts.seconds - now_utc
      if diff < 0 ∧ diff > -60 then Except.ok (now_i + 60)
      else if 0 ≤ diff then Except.ok (now_i + diff.toNat + offset)
      else Except.error "out of range integral type conversion attempted"

/-- `set_next_update_time`: sorts the fetched departures in place, then
schedules relative to the earliest one (offset 1 s); any failure selects
the ten-minute default.  Returns the sorted vector and the new
`transport_next_update`. -/
def set_next_update_time (deps : List Departure) (now_i : Nat) (now_utc : Int) :
    List Departure × Nat :=
  let sorted := sortDepartures deps
  match get_duration_to_next_departure sorted.head? 1 now_i now_utc with
  | Except.ok next_update => (sorted, next_update)
  | Except.error _ => (sorted, get_default_next_update_time now_i)

/-- `TransportUpdater::get_next_update_time` in `Real` mode: a planned
update in the past falls back to the ten-minute default. -/
def get_next_update_time_real (transport_next_update now_i : Nat) : Nat :=
  if transport_next_update < now_i then get_default_next_update_time now_i
  else transport_next_update

/-! ## Content store and updater write-back

`ScreenContentReply` is the shared snapshot.  `brightness` and the debt
amounts are `f32` on the wire; `brightness` is modelled by its bit pattern
(`brightness_bits`), debt amounts by exact rationals converted to bits at
encoding time. -/

/-- Model of the proto message `Time` (wall clock hour/minute). -/
structure Time where
  hours : Nat
  minutes : Nat
deriving DecidableEq, Repr

/-- Modelled from the spec: the proto message `ScreenContentReply`
(`screen_service.proto` is not part of src/); fields in the declaration
order implied by §3 of the spec and the construction sites in the sources,
numbered 1–6. -/
structure ScreenContentReply where
  now : Option Time := none
  brightness_bits : Nat := 0
  kitty_debts : List KittyDebt := []
  bus_departures : List Departure := []
  next_upcoming_event : Option CalendarEvent := none
  error : Bool := false
deriving DecidableEq, Repr

/-- `KittyUpdater::update` in `Real` mode (src/kitty_updater.rs lines
49–64): the fetch result is written into `kitty_debts`, an error writing
the empty vector; no error flag is touched (the updater has none in its
signature). -/
def kittyUpdateReal (fetch : Except String (List KittyDebt))
    (content : ScreenContentReply) : ScreenContentReply :=
  let debts := match fetch with
    | Except.ok d => d
    | Except.error _ => []
  { content with kitty_debts := debts }

/-- `GcalUpdater::update` in `Real` mode (src/gcal_updater.rs lines 53–71):
writes the fetched event (or `None` on failure) and stores the fetch
outcome in the shared error bit. -/
def gcalUpdateReal (fetch : Except String (Option CalendarEvent))
    (content : ScreenContentReply) (_error_bit : Bool) :
    ScreenContentReply × Bool :=
  match fetch with
  | Except.ok returned_event =>
    ({ content with next_upcoming_event := returned_event }, false)
  | Except.error _ =>
    ({ content with next_upcoming_event := none }, true)

/-- `TransportUpdater::update` in `Real` mode (src/transport_updater.rs
lines 62–81): on success the departures are sorted, written back, and the
next update time derived from the earliest of them; on failure the empty
vector is written and the ten-minute default applies.  Returns the new
content and the new `transport_next_update`. -/
def transportUpdateReal (fetch : Except String (List Departure))
    (now_i : Nat) (now_utc : Int) (content : ScreenContentReply) :
    ScreenContentReply × Nat :=
  match fetch with
  | Except.ok departures =>
    let r := set_next_update_time departures now_i now_utc
    ({ content with bus_departures := r.1 }, r.2)
  | Except.error _ =>
    ({ content with bus_departures := [] }, get_default_next_update_time now_i)

/-! ## Deterministic serialization and hashing (src/my_screen_service.rs)

`get_hash` locks the store, encodes the snapshot with prost and hashes the
buffer with `std::hash::DefaultHasher` (SipHash-1-3 with zero keys; hashing
a byte slice first writes its length).  The prost wire format is modelled
below; field numbers follow the `Modelled from the spec` message layouts. -/

/-- Protobuf base-128 varint, least-significant group first (fuel-driven
structural recursion; the fuel `n` always suffices). -/
def varintGo : Nat → Nat → List Nat
  | 0, n => [n % 128]
  | fuel + 1, n =>
    if n < 128 then [n] else (n % 128 + 128) :: varintGo fuel (n / 128)

/-- Protobuf base-128 varint. -/
def varint (n : Nat) : List Nat := varintGo n n

/-- Two's-complement 64-bit wire value of a signed integer (prost `int64`
and `int32` varint encoding). -/
def int64Wire (i : Int) : Nat := (i % 18446744073709551616).toNat

/-- Little-endian bytes, fixed width 4. -/
def le4 (n : Nat) : List Nat :=
  [n % 256, n / 256 % 256, n / 65536 % 256, n / 16777216 % 256]

/-- Little-endian bytes, fixed width 8. -/
def le8 (n : Nat) : List Nat :=
  [n % 256, n / 256 % 256, n / 65536 % 256, n / 16777216 % 256,
   n / 4294967296 % 256, n / 1099511627776 % 256,
   n / 281474976710656 % 256, n / 72057594037927936 % 256]

/-- UTF-8 bytes of one character. -/
def charUtf8 (c : Char) : List Nat :=
  let n := c.toNat
  if n < 128 then [n]
  else if n < 2048 then [192 + n / 64, 128 + n % 64]
  else if n < 65536 then [224 + n / 4096, 128 + n / 64 % 64, 128 + n % 64]
  else [240 + n / 262144, 128 + n / 4096 % 64, 128 + n / 64 % 64, 128 + n % 64]

/-- UTF-8 bytes of a string. -/
def utf8Bytes (s : String) : List Nat := s.data.flatMap charUtf8

/-- A length-delimited field (wire type 2). -/
def encodeLenField (fieldNum : Nat) (payload : List Nat) : List Nat :=
  varint (fieldNum * 8 + 2) ++ varint payload.length ++ payload

/-- A varint field (wire type 0), skipped at the proto3 default 0. -/
def encodeVarintField (fieldNum : Nat) (v : Nat) : List Nat :=
  if v = 0 then [] else varint (fieldNum * 8) ++ varint v

/-- A string field, skipped when empty. -/
def encodeStringField (fieldNum : Nat) (s : String) : List Nat :=
  if s = "" then [] else encodeLenField fieldNum (utf8Bytes s)

/-- A float field from its bit pattern (wire type 5), skipped when the
value compares equal to `0.0` (bit patterns of `+0.0` and `-0.0`). -/
def encodeF32Field (fieldNum : Nat) (bits : Nat) : List Nat :=
  if bits = 0 ∨ bits = 2147483648 then []
  else varint (fieldNum * 8 + 5) ++ le4 bits

/-- Binary32 bit pattern of an exact rational, round-to-nearest-even
(model of the `f32` the parser stored; never evaluated by the claims,
which use snapshots without float fields). -/
def f32BitsOfRat (q : Rat) : Nat :=
  if q.num = 0 then 0
  else
    let sgn : Nat := if q.num < 0 then 2147483648 else 0
    let num : Nat := q.num.natAbs
    let den : Nat := q.den
    -- e = ⌊log2 (num/den)⌋
    let e : Int :=
      if den ≤ num then (Nat.log2 (num / den) : Int)
      else -(Nat.clog 2 ((den + num - 1) / num) : Int)
    -- round-half-even of (num/den) · 2^(23 − e)
    let scaledNum : Nat := num * 2 ^ (Int.toNat (23 - e))
    let scaledDen : Nat := den * 2 ^ (Int.toNat (e - 23))
    let lo := scaledNum / scaledDen
    let rem2 := (scaledNum % scaledDen) * 2
    let m0 : Nat :=
      if rem2 < scaledDen then lo
      else if rem2 > scaledDen then lo + 1
      else if lo % 2 = 0 then lo else lo + 1
    -- the mantissa may round up into the next binade
    let m : Nat := if m0 = 16777216 then 8388608 else m0
    let e : Int := if m0 = 16777216 then e + 1 else e
    if e < -126 then
      -- subnormal range: round at 2^-149
      let sn := num * 2 ^ 149
      let lo := sn / den
      let r2 := (sn % den) * 2
      let msub := if r2 < den then lo else if r2 > den then lo + 1
                  else if lo % 2 = 0 then lo else lo + 1
      -- a rounded msub ≥ 2^23 rolls into the smallest normal exponent; the
      -- bit pattern is the plain sum in either case
      sgn + msub
    else if 127 < e ∨ (e = 127 ∧ m ≥ 16777216) then sgn + 255 * 8388608  -- infinity
    else sgn + (Int.toNat (e + 127)) * 8388608 + (m - 8388608)

/-- Proto encoding of `Time` (hours field 1, minutes field 2). -/
def encodeTime (t : Time) : List Nat :=
  encodeVarintField 1 t.hours ++ encodeVarintField 2 t.minutes

/-- Proto encoding of `Timestamp` (seconds field 1, nanos field 2). -/
def encodeTimestampMsg (ts : Timestamp) : List Nat :=
  encodeVarintField 1 (int64Wire ts.seconds) ++ encodeVarintField 2 (int64Wire ts.nanos)

/-- Proto encoding of `KittyDebt` (who 1, how_much 2, whom 3). -/
def encodeKittyDebt (d : KittyDebt) : List Nat :=
  encodeStringField 1 d.who ++ encodeF32Field 2 (f32BitsOfRat d.how_much) ++
    encodeStringField 3 d.whom

/-- Proto encoding of `Departure` (destination_enum 1, departure_time 2). -/
def encodeDeparture (d : Departure) : List Nat :=
  encodeVarintField 1 (int64Wire d.destination_enum.toInt) ++
    (match d.departure_time with
     | none => []
     | some ts => encodeLenField 2 (encodeTimestampMsg ts))

/-- Proto encoding of `CalendarEvent` (event_title 1, event_start 2). -/
def encodeCalendarEvent (e : CalendarEvent) : List Nat :=
  encodeStringField 1 e.event_title ++
    (match e.event_start with
     | none => []
     | some ts => encodeLenField 2 (encodeTimestampMsg ts))

/-- Proto encoding of the snapshot (`content.encode(&mut buf)`); fields
now 1, brightness 2, kitty_debts 3, bus_departures 4, next_upcoming_event
5, error 6. -/
def encodeContent (c : ScreenContentReply) : List Nat :=
  (match c.now with
   | none => []
   | some t => encodeLenField 1 (encodeTime t)) ++
  encodeF32Field 2 c.brightness_bits ++
  (c.kitty_debts.flatMap fun d => encodeLenField 3 (encodeKittyDebt d)) ++
  (c.bus_departures.flatMap fun d => encodeLenField 4 (encodeDeparture d)) ++
  (match c.next_upcoming_event with
   | none => []
   | some e => encodeLenField 5 (encodeCalendarEvent e)) ++
  (if c.error then varint 48 ++ [1] else [])

/-- SipHash internal state. -/
structure SipState where
  v0 : Nat
  v1 : Nat
  v2 : Nat
  v3 : Nat
deriving DecidableEq, Repr

/-- Truncation to 64 bits. -/
def w64 (n : Nat) : Nat := n % 18446744073709551616

/-- Wrapping 64-bit addition. -/
def wadd (a b : Nat) : Nat := w64 (a + b)

/-- 64-bit left rotation (operands below `2^64`). -/
def rotl (x r : Nat) : Nat := w64 (x * 2 ^ r) + x / 2 ^ (64 - r)

/-- One SipRound. -/
def sipRound (s : SipState) : SipState :=
  let v0 := wadd s.v0 s.v1
  let v1 := rotl s.v1 13
  let v1 := Nat.xor v1 v0
  let v0 := rotl v0 32
  let v2 := wadd s.v2 s.v3
  let v3 := rotl s.v3 16
  let v3 := Nat.xor v3 v2
  let v0 := wadd v0 v3
  let v3 := rotl v3 21
  let v3 := Nat.xor v3 v0
  let v2 := wadd v2 v1
  let v1 := rotl v1 17
  let v1 := Nat.xor v1 v2
  let v2 := rotl v2 32
  { v0, v1, v2, v3 }

/-- Little-endian word of up to eight bytes. -/
def le64word (bytes : List Nat) : Nat :=
  bytes.foldr (fun b acc => acc * 256 + b) 0

/-- Compression of one message word (SipHash-1-3: one round per word). -/
def sipCompress (s : SipState) (m : Nat) : SipState :=
  let s := { s with v3 := Nat.xor s.v3 m }
  let s := sipRound s
  { s with v0 := Nat.xor s.v0 m }

/-- Consumes all full 8-byte blocks. -/
def sipBlocksGo (s : SipState) : List Nat → SipState × List Nat
  | b0 :: b1 :: b2 :: b3 :: b4 :: b5 :: b6 :: b7 :: rest =>
    sipBlocksGo (sipCompress s (le64word [b0, b1, b2, b3, b4, b5, b6, b7])) rest
  | rest => (s, rest)

/-- SipHash-1-3 of a byte message. -/
def sipHash13 (k0 k1 : Nat) (msg : List Nat) : Nat :=
  let s : SipState :=
    { v0 := Nat.xor 8317987319222330741 k0, v1 := Nat.xor 7237128888997146477 k1,
      v2 := Nat.xor 7816392313619706465 k0, v3 := Nat.xor 8387220255154660723 k1 }
  let (s, tail) := sipBlocksGo s msg
  let lastWord := le64word tail + msg.length % 256 * 72057594037927936
  let s := sipCompress s lastWord
  let s := { s with v2 := Nat.xor s.v2 255 }
  let s := sipRound (sipRound (sipRound s))
  Nat.xor (Nat.xor s.v0 s.v1) (Nat.xor s.v2 s.v3)

/-- `std::hash::DefaultHasher` applied to a byte buffer via `buf.hash(...)`:
SipHash-1-3 with zero keys over the length-prefixed byte stream
(`Hash for [u8]` first writes the length as a 64-bit `usize`). -/
def defaultHasherOfBytes (bytes : List Nat) : Nat :=
  sipHash13 0 0 (le8 bytes.length ++ bytes)

/-- The store handle: the snapshot plus whether the mutex is poisoned. -/
structure Container where
  content : ScreenContentReply
  poisoned : Bool := false
deriving DecidableEq, Repr

/-- `MyScreenService::get_hash` (src/my_screen_service.rs lines 144–154):
locks the container, prost-encodes the snapshot as stored and hashes the
buffer.  A poisoned lock is the error path (`prost` encoding into a
`BytesMut` itself cannot fail). -/
def get_hash (c : Container) : Except String Nat :=
  if c.poisoned then Except.error "poisoned lock: another task failed inside"
  else Except.ok (defaultHasherOfBytes (encodeContent c.content))

/-- Reply message of /GetScreenHash. -/
structure ScreenHashReply where
  hash : Nat
deriving DecidableEq, Repr

/-- `get_screen_hash` (src/my_screen_service.rs lines 179–192): always an
`Ok` response; a failed hash computation is reported as `hash = 0`. -/
def get_screen_hash (c : Container) : Except String ScreenHashReply :=
  Except.ok
    (match get_hash c with
     | Except.ok hash => { hash }
     | Except.error _ => { hash := 0 })

/-- The hash computation the specification describes (the refinement
target of C2, built from the spec's words, not from the source): take a
snapshot copy, overwrite its time field with the current wall-clock hour
and minute, serialize deterministically and hash the bytes. -/
def specGetHash (content : ScreenContentReply) (hours minutes : Nat) : Nat :=
  defaultHasherOfBytes
    (encodeContent { content with now := some { hours, minutes } })

end RpiScreen

namespace RpiScreen

/-! ### Helper lemmas for the calendar parser -/

theorem summaryLine_ne_end (t : String) : ("SUMMARY:" ++ t : String) ≠ "END:VEVENT" := by
  intro h
  have h2 : ("SUMMARY:" ++ t).data = "END:VEVENT".data := congrArg String.data h
  rw [String.data_append] at h2
  have h3 : "SUMMARY:".data = 'S' :: "UMMARY:".data := rfl
  have h4 : "END:VEVENT".data = 'E' :: "ND:VEVENT".data := rfl
  simp only [h3, h4, List.cons_append, List.cons.injEq] at h2
  exact absurd h2.1 (by decide)

theorem dtstartLine_ne_end (t : String) : ("DTSTART:" ++ t : String) ≠ "END:VEVENT" := by
  intro h
  have h2 : ("DTSTART:" ++ t).data = "END:VEVENT".data := congrArg String.data h
  rw [String.data_append] at h2
  have h3 : "DTSTART:".data = 'D' :: "TSTART:".data := rfl
  have h4 : "END:VEVENT".data = 'E' :: "ND:VEVENT".data := rfl
  simp only [h3, h4, List.cons_append, List.cons.injEq] at h2
  exact absurd h2.1 (by decide)

theorem hasTag_self_append (tag t : String) : hasTag tag (tag ++ t) = true := by
  rw [hasTag, String.data_append, List.isPrefixOf_iff_prefix]
  exact List.prefix_append _ _

theorem hasTag_summary_of_dtstart (t : String) :
    hasTag "SUMMARY:" ("DTSTART:" ++ t) = false := by
  rw [hasTag, String.data_append]
  show List.isPrefixOf ('S' :: "UMMARY:".data) (('D' :: "TSTART:".data) ++ t.data) = false
  rw [List.cons_append, List.isPrefixOf]
  simp

theorem afterTag_self_append (tag t : String) : afterTag tag (tag ++ t) = t := by
  rw [afterTag, String.data_append, List.drop_left]

theorem hasTag_dtstart_of_summary (t : String) :
    hasTag "DTSTART:" ("SUMMARY:" ++ t) = false := by
  rw [hasTag, String.data_append]
  show List.isPrefixOf ('D' :: "TSTART:".data) (('S' :: "UMMARY:".data) ++ t.data) = false
  rw [List.cons_append, List.isPrefixOf]
  simp

/-- Processing of any line that is not the end marker and carries neither
recognised property is a no-op. -/
theorem parseNextEventGo_junk (acc : Option CalendarEvent) (l : String)
    (rest : List String) (hEnd : l ≠ "END:VEVENT")
    (hSum : hasTag "SUMMARY:" l = false) (hDt : hasTag "DTSTART:" l = false) :
    parseNextEventGo acc (l :: rest) = parseNextEventGo acc rest := by
  simp [parseNextEventGo, hEnd, hSum, hDt]

/-- Step lemma: the end marker stops the scan. -/
theorem parseNextEventGo_end (acc : Option CalendarEvent) (rest : List String) :
    parseNextEventGo acc ("END:VEVENT" :: rest) = Except.ok acc := by
  simp [parseNextEventGo]

/-- Step lemma: a `SUMMARY:` line sets the pending event's title. -/
theorem parseNextEventGo_summary (acc : Option CalendarEvent) (l : String)
    (rest : List String) (hEnd : l ≠ "END:VEVENT")
    (hSum : hasTag "SUMMARY:" l = true) :
    parseNextEventGo acc (l :: rest) =
      parseNextEventGo
        (some { acc.getD {} with event_title := afterTag "SUMMARY:" l }) rest := by
  simp [parseNextEventGo, hEnd, hSum]

/-- Step lemma: a `DTSTART:` line with a parseable value sets the pending
event's start time. -/
theorem parseNextEventGo_dtstart (acc : Option CalendarEvent) (l : String)
    (rest : List String) (y mo d h mi s : Nat) (t : Timestamp)
    (hEnd : l ≠ "END:VEVENT") (hSum : hasTag "SUMMARY:" l = false)
    (hDt : hasTag "DTSTART:" l = true)
    (hp : parseDateTimeFields false (afterTag "DTSTART:" l) = some (y, mo, d, h, mi, s))
    (ht : dateTimeToTs y mo d h mi s = some t) :
    parseNextEventGo acc (l :: rest) =
      parseNextEventGo (some { acc.getD {} with event_start := some t }) rest := by
  simp [parseNextEventGo, hEnd, hSum, hDt, hp, ht]

/-- Step lemma: a `DTSTART:` line whose value violates the timestamp grammar
aborts the parse with the `chrono` error message. -/
theorem parseNextEventGo_dtstart_bad (acc : Option CalendarEvent) (l : String)
    (rest : List String) (hEnd : l ≠ "END:VEVENT")
    (hSum : hasTag "SUMMARY:" l = false) (hDt : hasTag "DTSTART:" l = true)
    (hp : parseDateTimeFields false (afterTag "DTSTART:" l) = none) :
    parseNextEventGo acc (l :: rest) =
      Except.error (chronoParseErrMsg (afterTag "DTSTART:" l)) := by
  simp [parseNextEventGo, hEnd, hSum, hDt, hp]

/-- Everything after the first `END:VEVENT` line is ignored. -/
theorem parseNextEventGo_stops (pre : List String) :
    ∀ (acc : Option CalendarEvent) (post post' : List String),
    parseNextEventGo acc (pre ++ "END:VEVENT" :: post) =
      parseNextEventGo acc (pre ++ "END:VEVENT" :: post') := by
  induction pre with
  | nil =>
    intro acc post post'
    rw [List.nil_append, List.nil_append, parseNextEventGo_end, parseNextEventGo_end]
  | cons l pre ih =>
    intro acc post post'
    rw [List.cons_append, List.cons_append]
    by_cases hEnd : l = "END:VEVENT"
    · rw [hEnd, parseNextEventGo_end, parseNextEventGo_end]
    · by_cases hSum : hasTag "SUMMARY:" l
      · rw [parseNextEventGo_summary _ _ _ hEnd hSum,
          parseNextEventGo_summary _ _ _ hEnd hSum]
        exact ih _ _ _
      · by_cases hDt : hasTag "DTSTART:" l
        · cases hp : parseDateTimeFields false (afterTag "DTSTART:" l) with
          | none =>
            rw [parseNextEventGo_dtstart_bad _ _ _ hEnd (by simpa using hSum) hDt hp,
              parseNextEventGo_dtstart_bad _ _ _ hEnd (by simpa using hSum) hDt hp]
          | some f =>
            obtain ⟨y, mo, d, h, mi, s⟩ := f
            cases ht : dateTimeToTs y mo d h mi s with
            | none =>
              simp [parseNextEventGo, hEnd, hSum, hDt, hp, ht]
            | some t =>
              rw [parseNextEventGo_dtstart _ _ _ _ _ _ _ _ _ _
                  hEnd (by simpa using hSum) hDt hp ht,
                parseNextEventGo_dtstart _ _ _ _ _ _ _ _ _ _
                  hEnd (by simpa using hSum) hDt hp ht]
              exact ih _ _ _
        · rw [parseNextEventGo_junk _ _ _ hEnd (by simpa using hSum) (by simpa using hDt),
            parseNextEventGo_junk _ _ _ hEnd (by simpa using hSum) (by simpa using hDt)]
          exact ih _ _ _

/-- A run of lines that are neither markers nor recognised properties is
skipped wholesale. -/
theorem parseNextEventGo_junk_list (junk : List String) :
    ∀ (acc : Option CalendarEvent) (rest : List String),
    (∀ l ∈ junk, l ≠ "END:VEVENT" ∧ hasTag "SUMMARY:" l = false ∧
      hasTag "DTSTART:" l = false) →
    parseNextEventGo acc (junk ++ rest) = parseNextEventGo acc rest := by
  induction junk with
  | nil => intro acc rest _; rfl
  | cons l junk ih =>
    intro acc rest h
    have hl := h l (List.mem_cons_self l junk)
    rw [List.cons_append, parseNextEventGo_junk acc l _ hl.1 hl.2.1 hl.2.2]
    exact ih acc rest fun x hx => h x (List.mem_cons_of_mem l hx)

/-! ### Helper lemmas for the debt extractor -/

/-- A successfully extracted debt has non-empty names: the source refuses
records whose `who` or `whom` is empty after trimming. -/
theorem extract_debt_ok_names (texts : List String) (d : KittyDebt)
    (h : extract_debt texts = Except.ok d) : d.who ≠ "" ∧ d.whom ≠ "" := by
  unfold extract_debt at h
  cases hw : texts.find? (fun t => strContains t " gives ") with
  | none => rw [hw] at h; exact absurd h (by simp)
  | some who_text =>
    rw [hw] at h
    cases hm : texts.findSome? (fun t => parseF32 (strTrim t)) with
    | none => rw [hm] at h; exact absurd h (by simp)
    | some how_much =>
      rw [hm] at h
      cases hwm : texts.find? (fun t => strContains t " to ") with
      | none => rw [hwm] at h; exact absurd h (by simp)
      | some whom_text =>
        rw [hwm] at h
        simp only at h
        split at h
        · exact absurd h (by simp)
        · next hne =>
          rw [not_or] at hne
          cases h
          exact hne

/-- The extracted list has one record per element whose extraction
succeeds. -/
theorem length_filterMap_toOption (elements : List (List String)) :
    (elements.filterMap fun t => (extract_debt t).toOption).length =
      elements.countP fun e => (extract_debt e).isOk := by
  induction elements with
  | nil => rfl
  | cons e rest ih =>
    cases h : extract_debt e with
    | ok d =>
      rw [List.filterMap_cons_some (by rw [h]; rfl),
        List.countP_cons_of_pos _ _ (by rw [h]; rfl), List.length_cons, ih]
    | error s =>
      rw [List.filterMap_cons_none (by rw [h]; rfl),
        List.countP_cons_of_neg _ _ (by rw [h]; exact Bool.false_ne_true), ih]

/-! ### Helper lemmas for the OJP request template -/

theorem digitChar_isDigit (d : Nat) : (digitChar d).isDigit = true := by
  have h : d % 10 < 10 := Nat.mod_lt _ (by omega)
  unfold digitChar
  interval_cases h : d % 10 <;> rfl

theorem natDigitsAux_digits (fuel : Nat) :
    ∀ (n : Nat) (acc : List Char), (∀ c ∈ acc, c.isDigit = true) →
    ∀ c ∈ natDigitsAux fuel n acc, c.isDigit = true := by
  induction fuel with
  | zero => intro n acc hacc; exact hacc
  | succ fuel ih =>
    intro n acc hacc c hc
    unfold natDigitsAux at hc
    split at hc
    · rcases List.mem_cons.mp hc with h | h
      · rw [h]; exact digitChar_isDigit n
      · exact hacc c h
    · refine ih (n / 10) _ ?_ c hc
      intro c' hc'
      rcases List.mem_cons.mp hc' with h | h
      · rw [h]; exact digitChar_isDigit (n % 10)
      · exact hacc c' h

theorem count_z_of_digits (cs : List Char) (h : ∀ c ∈ cs, c.isDigit = true) :
    cs.count 'Z' = 0 := by
  rw [List.count_eq_zero]
  intro hz
  exact absurd (h 'Z' hz) (by decide)

theorem count_z_padNum (w n : Nat) : (padNum w n).data.count 'Z' = 0 := by
  show (padZeros w (natDigitsAux (n + 1) n [])).count 'Z' = 0
  unfold padZeros
  rw [List.count_append, count_z_of_digits _ (natDigitsAux_digits _ _ _ (by simp)),
    List.count_replicate]
  simp

theorem count_z_natToStr (n : Nat) : (natToStr n).data.count 'Z' = 0 :=
  count_z_of_digits _ (natDigitsAux_digits _ _ _ (by simp))

theorem count_z_formatOjpInstant (t : OjpInstant) :
    (formatOjpInstant t).data.count 'Z' = 1 := by
  unfold formatOjpInstant
  simp only [String.data_append, List.count_append]
  rw [count_z_padNum, count_z_padNum, count_z_padNum, count_z_padNum,
    count_z_padNum, count_z_padNum, count_z_padNum]
  decide

/-! ### Helper lemmas for the transit schedule -/

/-- The head of the sorted departure vector carries the minimal sort key:
`departures.first()` after `sort_by_key` is the earliest departure. -/
theorem sortDepartures_head_min (deps : List Departure) (d0 : Departure)
    (h : (sortDepartures deps).head? = some d0) :
    ∀ d ∈ deps, departureSortKey d0 ≤ departureSortKey d := by
  intro d hd
  have hs := @List.sorted_mergeSort _
    (fun a b => decide (departureSortKey a ≤ departureSortKey b))
    (fun a b c hab hbc => by
      simp only [decide_eq_true_eq] at *
      omega)
    (fun a b => by
      simp only [Bool.or_eq_true, decide_eq_true_eq]
      omega) deps
  have hp := List.mergeSort_perm deps
    (fun a b => decide (departureSortKey a ≤ departureSortKey b))
  have hd' : d ∈ sortDepartures deps := (hp.mem_iff).mpr hd
  cases e : sortDepartures deps with
  | nil => rw [e] at h; exact absurd h (by simp)
  | cons a t =>
    rw [e] at h
    have ha : a = d0 := by simpa using h
    rw [e] at hd'
    rw [sortDepartures] at e
    rw [e] at hs
    rcases List.mem_cons.mp hd' with h1 | h1
    · rw [ha] at h1; rw [h1]
    · have := (List.pairwise_cons.mp hs).1 d h1
      rw [ha] at this
      simpa using this

/-- `sort_by_key` on the empty vector. -/
theorem sortDepartures_nil : sortDepartures [] = [] :=
  List.perm_nil.mp (List.mergeSort_perm [] _)

/-- `sort_by_key` on a one-element vector. -/
theorem sortDepartures_singleton (d : Departure) : sortDepartures [d] = [d] :=
  List.perm_singleton.mp (List.mergeSort_perm [d] _)

/-- The first component of `set_next_update_time` is the sorted vector. -/
theorem set_next_update_time_fst (deps : List Departure) (now_i : Nat) (now_utc : Int) :
    (set_next_update_time deps now_i now_utc).1 = sortDepartures deps := by
  cases h : get_duration_to_next_departure (sortDepartures deps).head? 1 now_i now_utc <;>
    simp [set_next_update_time, h]

/-- The repository's own golden request (`makes_request` test vector). -/
theorem create_ojp_request_golden :
    create_ojp_request { stop_id := 123 } ⟨2024, 7, 26, 9, 42, 9, 123⟩ =
      ojpGoldenRequest := by
  have hts : (formatOjpInstant ⟨2024, 7, 26, 9, 42, 9, 123⟩).data =
      ("2024-07-26T09:42:09.123Z" : String).data := by decide
  have hstop : (natToStr 123).data = ("123" : String).data := by decide
  have h0 : ojpGoldenRequest.data = ojpPart1.data ++ ojpGoldenRequest.data.drop 373 := by
    conv_lhs => rw [← List.take_append_drop 373 ojpGoldenRequest.data]
    rw [(by decide : ojpGoldenRequest.data.take 373 = ojpPart1.data)]
  have h1 : ojpGoldenRequest.data.drop 373 = ("2024-07-26T09:42:09.123Z" : String).data ++ ojpGoldenRequest.data.drop 397 := by
    conv_lhs => rw [← List.take_append_drop 24 (ojpGoldenRequest.data.drop 373)]
    rw [(by decide : (ojpGoldenRequest.data.drop 373).take 24 = ("2024-07-26T09:42:09.123Z" : String).data),
      List.drop_drop]
  have h2 : ojpGoldenRequest.data.drop 397 = (ojpPart2 : String).data ++ ojpGoldenRequest.data.drop 550 := by
    conv_lhs => rw [← List.take_append_drop 153 (ojpGoldenRequest.data.drop 397)]
    rw [(by decide : (ojpGoldenRequest.data.drop 397).take 153 = (ojpPart2 : String).data),
      List.drop_drop]
  have h3 : ojpGoldenRequest.data.drop 550 = ("2024-07-26T09:42:09.123Z" : String).data ++ ojpGoldenRequest.data.drop 574 := by
    conv_lhs => rw [← List.take_append_drop 24 (ojpGoldenRequest.data.drop 550)]
    rw [(by decide : (ojpGoldenRequest.data.drop 550).take 24 = ("2024-07-26T09:42:09.123Z" : String).data),
      List.drop_drop]
  have h4 : ojpGoldenRequest.data.drop 574 = (ojpPart3 : String).data ++ ojpGoldenRequest.data.drop 698 := by
    conv_lhs => rw [← List.take_append_drop 124 (ojpGoldenRequest.data.drop 574)]
    rw [(by decide : (ojpGoldenRequest.data.drop 574).take 124 = (ojpPart3 : String).data),
      List.drop_drop]
  have h5 : ojpGoldenRequest.data.drop 698 = ("123" : String).data ++ ojpGoldenRequest.data.drop 701 := by
    conv_lhs => rw [← List.take_append_drop 3 (ojpGoldenRequest.data.drop 698)]
    rw [(by decide : (ojpGoldenRequest.data.drop 698).take 3 = ("123" : String).data),
      List.drop_drop]
  have h6 : ojpGoldenRequest.data.drop 701 = (ojpPart4 : String).data ++ ojpGoldenRequest.data.drop 933 := by
    conv_lhs => rw [← List.take_append_drop 232 (ojpGoldenRequest.data.drop 701)]
    rw [(by decide : (ojpGoldenRequest.data.drop 701).take 232 = (ojpPart4 : String).data),
      List.drop_drop]
  have h7 : ojpGoldenRequest.data.drop 933 = ("2024-07-26T09:42:09.123Z" : String).data ++ ojpGoldenRequest.data.drop 957 := by
    conv_lhs => rw [← List.take_append_drop 24 (ojpGoldenRequest.data.drop 933)]
    rw [(by decide : (ojpGoldenRequest.data.drop 933).take 24 = ("2024-07-26T09:42:09.123Z" : String).data),
      List.drop_drop]
  have h8 : ojpGoldenRequest.data.drop 957 = ojpPart5.data := by decide
  refine String.ext ?_
  conv_rhs => rw [h0, h1, h2, h3, h4, h5, h6, h7, h8]
  simp only [create_ojp_request, String.data_append, List.append_assoc, hts, hstop]

/-! ### Helper lemmas for the snapshot serialization -/

/-- Values below 128 are single-byte varints. -/
theorem varint_small (n : Nat) (h : n < 128) : varint n = [n] := by
  cases n with
  | zero => rfl
  | succ k => simp [varint, varintGo, h]

/-- The encoded `Time` payload holds at most four bytes (in-range fields
encode as single-byte varints). -/
theorem encodeTime_length_lt (t : Time) (hh : t.hours < 128)
    (hm : t.minutes < 128) : (encodeTime t).length < 128 := by
  rw [encodeTime, encodeVarintField, encodeVarintField]
  by_cases h0 : t.hours = 0 <;> by_cases m0 : t.minutes = 0 <;>
    simp [h0, m0, varint_small 8 (by omega), varint_small 16 (by omega),
      varint_small _ hh, varint_small _ hm]

/-- The `Time` payload encoding is injective on in-range fields (hours and
minutes below 128 encode as single bytes). -/
theorem encodeTime_inj (h m h' m' : Nat) (hh : h < 128) (hm : m < 128)
    (hh' : h' < 128) (hm' : m' < 128) (hne : (h, m) ≠ (h', m')) :
    encodeTime { hours := h, minutes := m } ≠
      encodeTime { hours := h', minutes := m' } := by
  intro heq
  rw [encodeTime, encodeTime, encodeVarintField, encodeVarintField,
    encodeVarintField, encodeVarintField] at heq
  by_cases h0 : h = 0 <;> by_cases m0 : m = 0 <;> by_cases h0' : h' = 0 <;>
    by_cases m0' : m' = 0 <;>
    simp only [h0, m0, h0', m0', if_pos, if_neg, if_true, if_false,
      varint_small 8 (by omega), varint_small 16 (by omega),
      varint_small h hh, varint_small m hm, varint_small h' hh',
      varint_small m' hm', List.nil_append, List.append_nil,
      List.cons_append, List.nil_eq, List.cons.injEq, and_true,
      List.ne_cons_self] at heq <;>
    first
      | (exact hne (by simp only [Prod.mk.injEq]; omega))
      | omega
      | simp at heq

/-- Two snapshots that differ only in the stored time field have different
prost serializations (in-range fields). -/
theorem encodeContent_now_inj (c : ScreenContentReply) (h m h' m' : Nat)
    (hh : h < 128) (hm : m < 128) (hh' : h' < 128) (hm' : m' < 128)
    (hne : (h, m) ≠ (h', m')) :
    encodeContent { c with now := some { hours := h, minutes := m } } ≠
      encodeContent { c with now := some { hours := h', minutes := m' } } := by
  intro heq
  rw [encodeContent, encodeContent] at heq
  simp only [encodeLenField,
    varint_small 10 (by omega),
    varint_small _ (encodeTime_length_lt { hours := h, minutes := m } hh hm),
    varint_small _ (encodeTime_length_lt { hours := h', minutes := m' } hh' hm'),
    List.cons_append, List.nil_append, List.append_assoc,
    List.cons.injEq] at heq
  obtain ⟨hlen, htail⟩ := heq
  exact encodeTime_inj h m h' m' hh hm hh' hm' hne
    (List.append_inj_left htail.2 htail.1)

/-! ### Helper lemmas for the transit extractor's departure map -/

theorem mapGet_mapInsert_self (m : DepartureMap) (k : DestinationEnum)
    (v : Departure) : mapGet (mapInsert m k v) k = some v := by
  induction m with
  | nil => simp [mapInsert, mapGet]
  | cons p rest ih =>
    by_cases h : p.1 = k
    · simp [mapInsert, h, mapGet]
    · simp only [mapInsert]
      rw [if_neg (by exact fun hh => h (by cases p; exact hh))]
      simpa [mapGet, List.find?, h] using ih

theorem mapGet_mapInsert_other (m : DepartureMap) (k k' : DestinationEnum)
    (v : Departure) (h : k' ≠ k) :
    mapGet (mapInsert m k v) k' = mapGet m k' := by
  induction m with
  | nil => simp [mapInsert, mapGet, List.find?, Ne.symm h]
  | cons p rest ih =>
    by_cases hp : p.1 = k
    · cases p with
      | mk pk pv =>
        simp only at hp
        simp [mapInsert, hp, mapGet, List.find?, h, Ne.symm h]
    · cases p with
      | mk pk pv =>
        simp only at hp
        simp only [mapInsert, if_neg hp]
        by_cases hk' : pk = k'
        · simp [mapGet, List.find?, hk']
        · simpa [mapGet, List.find?, hk'] using ih

theorem mem_mapInsert (m : DepartureMap) (k : DestinationEnum) (v : Departure)
    (p : DestinationEnum × Departure) (h : p ∈ mapInsert m k v) :
    p ∈ m ∨ p = (k, v) := by
  induction m with
  | nil => simpa [mapInsert] using h
  | cons q rest ih =>
    simp only [mapInsert] at h
    split at h
    · rcases List.mem_cons.mp h with h1 | h1
      · right; exact h1
      · left; exact List.mem_cons_of_mem q h1
    · rcases List.mem_cons.mp h with h1 | h1
      · left; rw [h1]; exact List.mem_cons_self q rest
      · rcases ih h1 with h2 | h2
        · left; exact List.mem_cons_of_mem q h2
        · right; exact h2

theorem mem_keys_mapInsert (m : DepartureMap) (k x : DestinationEnum)
    (v : Departure) (h : x ∈ mapKeys (mapInsert m k v)) :
    x ∈ mapKeys m ∨ x = k := by
  rw [mapKeys, List.mem_map] at h
  obtain ⟨p, hp, hx⟩ := h
  rcases mem_mapInsert m k v p hp with h1 | h1
  · left; rw [mapKeys, List.mem_map]; exact ⟨p, h1, hx⟩
  · right; rw [h1] at hx; exact hx.symm

theorem nodup_keys_mapInsert (m : DepartureMap) (k : DestinationEnum)
    (v : Departure) (h : (mapKeys m).Nodup) :
    (mapKeys (mapInsert m k v)).Nodup := by
  induction m with
  | nil => simp [mapInsert, mapKeys]
  | cons p rest ih =>
    rw [mapKeys, List.map_cons, List.nodup_cons] at h
    simp only [mapInsert]
    split
    · next hp =>
      rw [mapKeys, List.map_cons, List.nodup_cons]
      exact ⟨by rw [← hp]; exact h.1, h.2⟩
    · next hp =>
      rw [mapKeys, List.map_cons, List.nodup_cons]
      refine ⟨fun hmem => ?_, ih h.2⟩
      rcases mem_keys_mapInsert rest k p.1 v hmem with h1 | h1
      · exact h.1 h1
      · exact hp h1

/-- A looked-up binding is a member of the map. -/
theorem mapGet_mem (m : DepartureMap) (k : DestinationEnum) (v : Departure)
    (h : mapGet m k = some v) : (k, v) ∈ m := by
  induction m with
  | nil => exact absurd h (by simp [mapGet])
  | cons p rest ih =>
    cases p with
    | mk pk pv =>
      by_cases hp : pk = k
      · rw [mapGet, List.find?_cons_of_pos _ (by simpa using hp)] at h
        have hv : pv = v := by simpa using h
        rw [← hp, ← hv]
        exact List.mem_cons_self _ _
      · rw [mapGet, List.find?_cons_of_neg _ (by simpa using hp)] at h
        exact List.mem_cons_of_mem _ (ih h)

/-- `insertEarlier` preserves the map invariant. -/
theorem wf_insertEarlier (m : DepartureMap) (en : DestinationEnum)
    (ts : Timestamp) (h : WFDepartureMap m) :
    WFDepartureMap (insertEarlier m en ts) := by
  have hins : ∀ ts', WFDepartureMap
      (mapInsert m en { destination_enum := en, departure_time := some ts' }) := by
    intro ts'
    constructor
    · intro p hp
      rcases mem_mapInsert m en _ p hp with h1 | h1
      · exact h.1 p h1
      · rw [h1]; exact ⟨ts', rfl⟩
    · exact nodup_keys_mapInsert m en _ h.2
  cases hg : mapGet m en with
  | none =>
    simp only [insertEarlier, hg]
    exact hins ts
  | some existing =>
    obtain ⟨t0, hex⟩ := h.1 (en, existing) (mapGet_mem _ _ _ hg)
    simp only at hex
    by_cases hcmp : t0.seconds > ts.seconds
    · simp only [insertEarlier, hg, hex, if_pos hcmp]
      exact hins ts
    · simp only [insertEarlier, hg, hex, if_neg hcmp]
      exact h

/-- `insertEarlier` keeps the per-destination minimum of the stored and the
candidate departure seconds. -/
theorem mapGetSeconds_insertEarlier_self (m : DepartureMap)
    (en : DestinationEnum) (ts : Timestamp) (h : WFDepartureMap m) :
    mapGetSeconds (insertEarlier m en ts) en =
      stepMin (mapGetSeconds m en) ts.seconds := by
  cases hg : mapGet m en with
  | none =>
    simp [insertEarlier, hg, mapGetSeconds, mapGet_mapInsert_self, stepMin]
  | some existing =>
    obtain ⟨t0, hex⟩ := h.1 (en, existing) (mapGet_mem _ _ _ hg)
    simp only at hex
    by_cases hcmp : t0.seconds > ts.seconds
    · simp [insertEarlier, hg, hex, hcmp, mapGetSeconds, mapGet_mapInsert_self,
        stepMin, min_eq_right (le_of_lt hcmp)]
    · simp [insertEarlier, hg, hex, hcmp, mapGetSeconds, stepMin,
        min_eq_left (by omega : t0.seconds ≤ ts.seconds)]

/-- `insertEarlier` leaves other destinations untouched. -/
theorem mapGetSeconds_insertEarlier_other (m : DepartureMap)
    (en en' : DestinationEnum) (ts : Timestamp) (h : en' ≠ en) :
    mapGetSeconds (insertEarlier m en ts) en' = mapGetSeconds m en' := by
  cases hg : mapGet m en with
  | none =>
    simp [insertEarlier, hg, mapGetSeconds, mapGet_mapInsert_other _ _ _ _ h]
  | some existing =>
    cases ht : existing.departure_time with
    | none => simp only [insertEarlier, hg, ht]
    | some t0 =>
      by_cases hcmp : t0.seconds > ts.seconds
      · simp [insertEarlier, hg, ht, hcmp, mapGetSeconds,
          mapGet_mapInsert_other _ _ _ _ h]
      · simp [insertEarlier, hg, ht, hcmp]

/-- `processStopEvent` inserts through the first matching configured
destination, as characterized by `destFor`. -/
theorem processStopEvent_eq (dests : List DestinationPoints) (id : Nat)
    (ts : Timestamp) (m : DepartureMap) :
    processStopEvent dests id ts m =
      match destFor dests id with
      | none => m
      | some en => insertEarlier m en ts := by
  induction dests with
  | nil => rfl
  | cons dest rest ih =>
    rw [processStopEvent, destFor]
    by_cases hstop : dest.stops.any fun stop => stop = id
    · rw [if_pos hstop, if_pos hstop]
    · rw [if_neg hstop, if_neg hstop, ih]

/-- `processStopEvent` preserves the map invariant. -/
theorem wf_processStopEvent (dests : List DestinationPoints) (id : Nat)
    (ts : Timestamp) (m : DepartureMap) (h : WFDepartureMap m) :
    WFDepartureMap (processStopEvent dests id ts m) := by
  rw [processStopEvent_eq]
  cases destFor dests id with
  | none => exact h
  | some en => exact wf_insertEarlier m en ts h

/-- Effect of one completed stop event on a destination's stored seconds. -/
theorem mapGetSeconds_processStopEvent (dests : List DestinationPoints)
    (id : Nat) (ts : Timestamp) (m : DepartureMap) (en : DestinationEnum)
    (h : WFDepartureMap m) :
    mapGetSeconds (processStopEvent dests id ts m) en =
      if destFor dests id = some en then stepMin (mapGetSeconds m en) ts.seconds
      else mapGetSeconds m en := by
  rw [processStopEvent_eq]
  cases hd : destFor dests id with
  | none => rw [if_neg (by simp)]
  | some en' =>
    by_cases hen : en' = en
    · rw [hen]
      rw [if_pos rfl]
      exact mapGetSeconds_insertEarlier_self m en ts h
    · rw [if_neg (by simp [hen])]
      exact mapGetSeconds_insertEarlier_other m en' en ts (Ne.symm hen)

/-- The collected departures of a well-formed map have pairwise distinct
destinations. -/
theorem finishDepartures_pairwise (m : DepartureMap) (h : WFDepartureMap m) :
    (finishDepartures m).Pairwise
      (fun d1 d2 => d1.destination_enum ≠ d2.destination_enum) := by
  rw [finishDepartures, List.pairwise_map]
  have hkeys : List.Pairwise (fun p q : DestinationEnum × Departure => p.1 ≠ q.1) m :=
    List.pairwise_map.mp h.2
  refine hkeys.imp_of_mem ?_
  intro p q hp hq hne
  obtain ⟨ts1, e1⟩ := h.1 p hp
  obtain ⟨ts2, e2⟩ := h.1 q hq
  rw [e1, e2]
  simpa using hne

/-- Any successful extraction yields at most one departure per logical
destination. -/
theorem extractGo_ok_pairwise (cfg : TransportConfig) (f : Nat) (b : DepartureBuilder)
    (m : DepartureMap) (events : List XEvent) :
    WFDepartureMap m → ∀ res, extractGo cfg f b m events = Except.ok res →
    res.Pairwise (fun d1 d2 => d1.destination_enum ≠ d2.destination_enum) := by
  induction f, b, m, events using extractGo.induct cfg with
  | case1 b m evs =>
    intro hwf res hok
    simp only [extractGo, Except.ok.injEq] at hok
    rw [← hok]
    exact finishDepartures_pairwise m hwf
  | case2 fuel b m =>
    intro hwf res hok
    simp only [extractGo, Except.ok.injEq] at hok
    rw [← hok]
    exact finishDepartures_pairwise m hwf
  | case3 fuel b m tail =>
    intro hwf res hok
    simp only [extractGo, Except.ok.injEq] at hok
    rw [← hok]
    exact finishDepartures_pairwise m hwf
  | case4 fuel b m tail =>
    intro hwf res hok
    simp only [extractGo, Except.ok.injEq] at hok
    rw [← hok]
    exact finishDepartures_pairwise m hwf
  | case5 fuel b m name hname t rest' e herr =>
    intro hwf res hok
    rcases hname with h | h <;> subst h <;> simp [extractGo, herr] at hok
  | case6 fuel b m name hname t rest' ts hts ih =>
    intro hwf res hok
    rcases hname with h | h <;> subst h <;> simp [extractGo, hts] at hok <;>
      exact ih hwf res hok
  | case7 fuel b m name hname head rest' hhead ih =>
    intro hwf res hok
    rcases hname with h | h <;> subst h <;>
      cases head <;> first
        | exact absurd rfl (hhead _)
        | (simp [extractGo] at hok; exact ih hwf res hok)
  | case8 fuel b m name hname =>
    intro hwf res hok
    rcases hname with h | h <;> subst h <;>
      simp [extractGo] at hok <;> rw [← hok] <;>
      exact finishDepartures_pairwise m hwf
  | case9 fuel b m t rest' hparse hno =>
    intro hwf res hok
    simp [extractGo, hparse] at hok
    rw [← hok]
    exact finishDepartures_pairwise m hwf
  | case10 fuel b m t rest' id hparse hno ih =>
    intro hwf res hok
    simp [extractGo, hparse] at hok
    exact ih hwf res hok
  | case11 fuel b m head rest' hhead hno ih =>
    intro hwf res hok
    cases head <;> first
      | exact absurd rfl (hhead _)
      | (simp [extractGo] at hok; exact ih hwf res hok)
  | case12 fuel b m hno =>
    intro hwf res hok
    simp [extractGo] at hok
    rw [← hok]
    exact finishDepartures_pairwise m hwf
  | case13 fuel b m name h1 h2 hname head head2 rest' ih =>
    intro hwf res hok
    rcases hname with h | h <;> subst h <;> simp [extractGo] at hok <;>
      exact ih hwf res hok
  | case14 fuel b m name rest h1 h2 hname hshort =>
    intro hwf res hok
    rcases hname with h | h <;> subst h <;>
      (cases rest with
       | nil => simp [extractGo] at hok; rw [← hok];
                exact finishDepartures_pairwise m hwf
       | cons a tail =>
         cases tail with
         | nil => simp [extractGo] at hok; rw [← hok];
                  exact finishDepartures_pairwise m hwf
         | cons a2 tail2 => exact absurd rfl (hshort a a2 tail2))
  | case15 fuel b m name rest h1 h2 h3 ih =>
    intro hwf res hok
    simp only [extractGo] at hok
    rw [if_neg h1, if_neg (by simpa using h2), if_neg h3] at hok
    exact ih hwf res hok
  | case16 fuel m rest ts id ih =>
    intro hwf res hok
    simp only [extractGo] at hok
    exact ih (wf_processStopEvent _ _ _ _ hwf) res hok
  | case17 fuel b m rest hb ih =>
    intro hwf res hok
    obtain ⟨bt, bid⟩ := b
    cases bt with
    | some ts =>
      cases bid with
      | some id => exact absurd rfl (hb ts id)
      | none => simp only [extractGo] at hok; exact ih hwf res hok
    | none =>
      cases bid <;> (simp only [extractGo] at hok; exact ih hwf res hok)
  | case18 fuel b m name rest hname ih =>
    intro hwf res hok
    simp only [extractGo] at hok
    rw [if_neg (by simpa using hname)] at hok
    exact ih hwf res hok
  | case19 fuel b m s rest ih =>
    intro hwf res hok
    simp only [extractGo] at hok
    exact ih hwf res hok

/-- On the exhausted stream the loop returns the collected departures at
any fuel. -/
theorem extractGo_nil (cfg : TransportConfig) (f : Nat) (b : DepartureBuilder)
    (m : DepartureMap) : extractGo cfg f b m [] = Except.ok (finishDepartures m) := by
  cases f <;> simp [extractGo]

/-- Running the loop over one complete `StopEventResult` block: the block's
time and stop ID are folded into the accumulator through the
per-destination loop, the builder holding the block's two parsed
values. -/
theorem extractGo_block (cfg : TransportConfig) (f : Nat) (b : DepartureBuilder)
    (m : DepartureMap) (tt idStr : String) (ts : Timestamp) (id : Nat)
    (rest : List XEvent) (hts : get_time tt = Except.ok ts)
    (hid : parseU32 idStr = some id) :
    extractGo cfg (f + 6) b m (mkStopEventBlock tt idStr ++ rest) =
      extractGo cfg f { departure_time := some ts, dest_id := some id }
        (processStopEvent cfg.destination_points id ts m) rest := by
  simp [mkStopEventBlock, extractGo, hts, hid]

/-- Running the loop over one `StopEventResult` block carrying both a
timetabled and an estimated time: the estimated time, read second,
overwrites the timetabled one in the builder, so the block contributes the
estimated time. -/
theorem extractGo_blockTTET (cfg : TransportConfig) (f : Nat) (b : DepartureBuilder)
    (m : DepartureMap) (tt et idStr : String) (ts1 ts2 : Timestamp) (id : Nat)
    (rest : List XEvent) (h1 : get_time tt = Except.ok ts1)
    (h2 : get_time et = Except.ok ts2) (hid : parseU32 idStr = some id) :
    extractGo cfg (f + 8) b m (mkStopEventBlockTTET tt et idStr ++ rest) =
      extractGo cfg f { departure_time := some ts2, dest_id := some id }
        (processStopEvent cfg.destination_points id ts2 m) rest := by
  simp [mkStopEventBlockTTET, extractGo, h1, h2, hid]

/-- Length of a stream of complete blocks. -/
theorem blocksOf_length (pairs : List ((String × String) × (Timestamp × Nat))) :
    (blocksOf pairs).length = 8 * pairs.length := by
  induction pairs with
  | nil => rfl
  | cons p ps ih =>
    have hstream : blocksOf (p :: ps) = mkStopEventBlock p.1.1 p.1.2 ++ blocksOf ps := by
      simp [blocksOf]
    rw [hstream, List.length_append, ih]
    simp only [mkStopEventBlock, List.length_cons, List.length_nil]
    omega

/-- Running the loop over a stream of complete blocks folds every block's
(time, stop ID) through the per-destination loop. -/
theorem extractGo_blocksOf (cfg : TransportConfig) :
    ∀ (pairs : List ((String × String) × (Timestamp × Nat))),
    (∀ p ∈ pairs, get_time p.1.1 = Except.ok p.2.1 ∧ parseU32 p.1.2 = some p.2.2) →
    ∀ (f : Nat) (b : DepartureBuilder) (m : DepartureMap), 6 * pairs.length ≤ f →
      extractGo cfg f b m (blocksOf pairs) =
        Except.ok (finishDepartures
          ((pairs.map Prod.snd).foldl
            (fun m q => processStopEvent cfg.destination_points q.2 q.1 m) m)) := by
  intro pairs
  induction pairs with
  | nil =>
    intro _ f b m _
    simp only [blocksOf, List.map_nil, List.flatten_nil, List.foldl_nil]
    exact extractGo_nil cfg f b m
  | cons p ps ih =>
    intro h f b m hf
    simp only [List.length_cons] at hf
    obtain ⟨g, rfl⟩ : ∃ g, f = g + 6 := ⟨f - 6, by omega⟩
    have hstream : blocksOf (p :: ps) = mkStopEventBlock p.1.1 p.1.2 ++ blocksOf ps := by
      simp [blocksOf]
    rw [hstream,
      extractGo_block cfg g b m p.1.1 p.1.2 p.2.1 p.2.2 (blocksOf ps)
        (h p (List.mem_cons_self p ps)).1 (h p (List.mem_cons_self p ps)).2,
      ih (fun q hq => h q (List.mem_cons_of_mem p hq)) g _ _ (by omega)]
    simp

/-- The stored seconds after folding a data list through the
per-destination loop: for each destination, the candidate seconds folded
through the earliest-wins accumulator. -/
theorem mapGetSeconds_foldl (dests : List DestinationPoints) (en : DestinationEnum) :
    ∀ (data : List (Timestamp × Nat)) (m : DepartureMap), WFDepartureMap m →
      mapGetSeconds (data.foldl (fun m q => processStopEvent dests q.2 q.1 m) m) en =
        (candSeconds dests data en).foldl stepMin (mapGetSeconds m en) := by
  intro data
  induction data with
  | nil => intro m _; rfl
  | cons p ps ih =>
    intro m hm
    rw [List.foldl_cons, ih _ (wf_processStopEvent _ _ _ _ hm),
      mapGetSeconds_processStopEvent _ _ _ _ _ hm]
    by_cases hd : destFor dests p.2 = some en
    · rw [if_pos hd]
      have hc : candSeconds dests (p :: ps) en = p.1.seconds :: candSeconds dests ps en := by
        simp [candSeconds, hd]
      rw [hc, List.foldl_cons]
    · rw [if_neg hd]
      have hc : candSeconds dests (p :: ps) en = candSeconds dests ps en := by
        simp [candSeconds, hd]
      rw [hc]

/-- The accumulated map of a data list realises the earliest-wins fold for
every destination. -/
theorem mapGetSeconds_departuresOfPairs (dests : List DestinationPoints)
    (data : List (Timestamp × Nat)) (en : DestinationEnum) :
    mapGetSeconds (departuresOfPairs dests data) en =
      (candSeconds dests data en).foldl stepMin none := by
  have h := mapGetSeconds_foldl dests en data []
    ⟨fun p hp => absurd hp (List.not_mem_nil p), by simp [mapKeys]⟩
  simpa [departuresOfPairs, mapGetSeconds, mapGet] using h

/-- The earliest-wins fold started from a value: it returns the minimum of
the start value and the list. -/
theorem foldl_stepMin_some (l : List Int) :
    ∀ a : Int, ∃ y, l.foldl stepMin (some a) = some y ∧ (y = a ∨ y ∈ l) ∧ y ≤ a ∧
      ∀ x ∈ l, y ≤ x := by
  induction l with
  | nil => intro a; exact ⟨a, rfl, Or.inl rfl, le_refl a, by simp⟩
  | cons x xs ih =>
    intro a
    obtain ⟨y, h1, h2, h3, h4⟩ := ih (min a x)
    refine ⟨y, ?_, ?_, ?_, ?_⟩
    · rw [List.foldl_cons]; simpa [stepMin] using h1
    · rcases h2 with rfl | h2
      · rcases min_cases a x with ⟨he, _⟩ | ⟨he, _⟩
        · exact Or.inl he
        · exact Or.inr (by rw [he]; exact List.mem_cons_self x xs)
      · exact Or.inr (List.mem_cons_of_mem x h2)
    · exact le_trans h3 (min_le_left a x)
    · intro z hz
      rcases List.mem_cons.mp hz with rfl | hz
      · exact le_trans h3 (min_le_right a z)
      · exact h4 z hz
/-- The earliest-wins fold of a non-empty candidate list returns its
minimum. -/
theorem foldl_stepMin_min (l : List Int) (hl : l ≠ []) :
    ∃ y, l.foldl stepMin none = some y ∧ y ∈ l ∧ ∀ x ∈ l, y ≤ x := by
  cases l with
  | nil => exact absurd rfl hl
  | cons x xs =>
    obtain ⟨y, h1, h2, h3, h4⟩ := foldl_stepMin_some xs x
    refine ⟨y, ?_, ?_, ?_⟩
    · rw [List.foldl_cons]; simpa [stepMin] using h1
    · rcases h2 with rfl | h2
      · exact List.mem_cons_self y xs
      · exact List.mem_cons_of_mem x h2
    · intro z hz
      rcases List.mem_cons.mp hz with rfl | hz
      · exact h3
      · exact h4 z hz

/-- Any error of the extraction loop is the propagated `get_time` failure
of a text node directly under a `TimetabledTime` or `EstimatedTime` start
tag. -/
theorem extractGo_error_source (cfg : TransportConfig) (f : Nat) (b : DepartureBuilder)
    (m : DepartureMap) (events : List XEvent) :
    ∀ e, extractGo cfg f b m events = Except.error e →
    ∃ name t, (name = "ojp:TimetabledTime" ∨ name = "ojp:EstimatedTime") ∧
      get_time t = Except.error e ∧
      [XEvent.start name, XEvent.text t] <:+: events := by
  induction f, b, m, events using extractGo.induct cfg with
  | case1 b m evs => intro e hok; simp [extractGo] at hok
  | case2 fuel b m => intro e hok; simp [extractGo] at hok
  | case3 fuel b m tail => intro e hok; simp [extractGo] at hok
  | case4 fuel b m tail => intro e hok; simp [extractGo] at hok
  | case5 fuel b m name hname t rest' e0 herr =>
    intro e hok
    rcases hname with h | h <;> subst h <;> simp [extractGo, herr] at hok <;> subst hok
    · exact ⟨_, t, Or.inl rfl, herr, ⟨[], rest', rfl⟩⟩
    · exact ⟨_, t, Or.inr rfl, herr, ⟨[], rest', rfl⟩⟩
  | case6 fuel b m name hname t rest' ts hts ih =>
    intro e hok
    rcases hname with h | h <;> subst h <;> simp [extractGo, hts] at hok <;>
      (obtain ⟨n', t', hn, he, hinf⟩ := ih e hok;
       exact ⟨n', t', hn, he, List.infix_cons (List.infix_cons hinf)⟩)
  | case7 fuel b m name hname head rest' hhead ih =>
    intro e hok
    rcases hname with h | h <;> subst h <;> cases head <;> first
      | exact absurd rfl (hhead _)
      | (simp [extractGo] at hok;
         obtain ⟨n', t', hn, he, hinf⟩ := ih e hok;
         exact ⟨n', t', hn, he, List.infix_cons (List.infix_cons hinf)⟩)
  | case8 fuel b m name hname =>
    intro e hok
    rcases hname with h | h <;> subst h <;> simp [extractGo] at hok
  | case9 fuel b m t rest' hparse hno =>
    intro e hok
    simp [extractGo, hparse] at hok
  | case10 fuel b m t rest' id hparse hno ih =>
    intro e hok
    simp [extractGo, hparse] at hok
    obtain ⟨n', t', hn, he, hinf⟩ := ih e hok
    exact ⟨n', t', hn, he, List.infix_cons (List.infix_cons hinf)⟩
  | case11 fuel b m head rest' hhead hno ih =>
    intro e hok
    cases head <;> first
      | exact absurd rfl (hhead _)
      | (simp [extractGo] at hok;
         obtain ⟨n', t', hn, he, hinf⟩ := ih e hok;
         exact ⟨n', t', hn, he, List.infix_cons (List.infix_cons hinf)⟩)
  | case12 fuel b m hno =>
    intro e hok
    simp [extractGo] at hok
  | case13 fuel b m name h1 h2 hname head head2 rest' ih =>
    intro e hok
    rcases hname with h | h <;> subst h <;> simp [extractGo] at hok <;>
      (obtain ⟨n', t', hn, he, hinf⟩ := ih e hok;
       exact ⟨n', t', hn, he,
         List.infix_cons (List.infix_cons (List.infix_cons hinf))⟩)
  | case14 fuel b m name rest h1 h2 hname hshort =>
    intro e hok
    rcases hname with h | h <;> subst h <;>
      (cases rest with
       | nil => simp [extractGo] at hok
       | cons a tail =>
         cases tail with
         | nil => simp [extractGo] at hok
         | cons a2 tail2 => exact absurd rfl (hshort a a2 tail2))
  | case15 fuel b m name rest h1 h2 h3 ih =>
    intro e hok
    simp only [extractGo] at hok
    rw [if_neg h1, if_neg (by simpa using h2), if_neg h3] at hok
    obtain ⟨n', t', hn, he, hinf⟩ := ih e hok
    exact ⟨n', t', hn, he, List.infix_cons hinf⟩
  | case16 fuel m rest ts id ih =>
    intro e hok
    simp only [extractGo] at hok
    obtain ⟨n', t', hn, he, hinf⟩ := ih e hok
    exact ⟨n', t', hn, he, List.infix_cons hinf⟩
  | case17 fuel b m rest hb ih =>
    intro e hok
    obtain ⟨bt, bid⟩ := b
    cases bt with
    | some ts =>
      cases bid with
      | some id => exact absurd rfl (hb ts id)
      | none =>
        simp only [extractGo] at hok
        obtain ⟨n', t', hn, he, hinf⟩ := ih e hok
        exact ⟨n', t', hn, he, List.infix_cons hinf⟩
    | none =>
      cases bid <;> simp only [extractGo] at hok
      all_goals
        obtain ⟨n', t', hn, he, hinf⟩ := ih e hok
        exact ⟨n', t', hn, he, List.infix_cons hinf⟩
  | case18 fuel b m name rest hname ih =>
    intro e hok
    simp only [extractGo] at hok
    rw [if_neg (by simpa using hname)] at hok
    obtain ⟨n', t', hn, he, hinf⟩ := ih e hok
    exact ⟨n', t', hn, he, List.infix_cons hinf⟩
  | case19 fuel b m s rest ih =>
    intro e hok
    simp only [extractGo] at hok
    obtain ⟨n', t', hn, he, hinf⟩ := ih e hok
    exact ⟨n', t', hn, he, List.infix_cons hinf⟩

/-- The earliest-wins fold is `none` exactly on the empty candidate
list. -/
theorem foldl_stepMin_none_iff (l : List Int) :
    l.foldl stepMin none = none ↔ l = [] := by
  cases l with
  | nil => simp
  | cons x xs =>
    obtain ⟨y, h1, _, _, _⟩ := foldl_stepMin_some xs x
    constructor
    · intro h
      rw [List.foldl_cons] at h
      simp only [stepMin] at h
      rw [h1] at h
      exact absurd h (by simp)
    · intro h; exact absurd h (by simp)

/-- A feed without recognised property lines never produces an event. -/
theorem parseNextEventGo_no_props (lines : List String) :
    ∀ acc : Option CalendarEvent,
    (∀ l ∈ lines, hasTag "SUMMARY:" l = false ∧ hasTag "DTSTART:" l = false) →
    parseNextEventGo acc lines = Except.ok acc := by
  induction lines with
  | nil => intro acc _; rfl
  | cons l rest ih =>
    intro acc h
    have hSum := (h l (List.mem_cons_self l rest)).1
    have hDt := (h l (List.mem_cons_self l rest)).2
    have hrest := fun x hx => h x (List.mem_cons_of_mem l hx)
    by_cases hEnd : l = "END:VEVENT"
    · rw [hEnd, parseNextEventGo_end]
    · rw [parseNextEventGo_junk acc l rest hEnd hSum hDt]
      exact ih acc hrest

end RpiScreen

namespace RpiScreenClaims

open RpiScreen

/-- **C4.** An `ExponentialBackoff` created from `(base, first_error, max_error)`
starts in normal mode with current duration `base`; `set_error()` in normal
mode enters error mode with duration `first_error`; `set_error()` in error
mode doubles the duration up to the ceiling `max_error`; `set_success()` in
error mode returns to normal mode with duration `base` and is a no-op in
normal mode.  With `base=10s, first_error=1s, max=20s`, successive failures
yield 1, 2, 4, 8, 16, 20, 20 seconds and a subsequent success yields 10
seconds in normal mode. -/
theorem c4_exponential_backoff :
    (∀ base fe me, (ExponentialBackoff.new base fe me).is_error = false ∧
      (ExponentialBackoff.new base fe me).get_current_duration = base) ∧
    (∀ b : ExponentialBackoff, b.is_error = false →
      b.set_error.is_error = true ∧
      b.set_error.get_current_duration = b.first_error_duration) ∧
    (∀ b : ExponentialBackoff, b.is_error = true →
      b.set_error.is_error = true ∧
      b.set_error.get_current_duration =
        min (b.current_duration * 2) b.max_error_duration) ∧
    (∀ b : ExponentialBackoff, b.is_error = true →
      b.set_success.is_error = false ∧
      b.set_success.get_current_duration = b.base_duration) ∧
    (∀ b : ExponentialBackoff, b.is_error = false → b.set_success = b) ∧
    (let b0 := ExponentialBackoff.new 10 1 20
     let b1 := b0.set_error
     let b2 := b1.set_error
     let b3 := b2.set_error
     let b4 := b3.set_error
     let b5 := b4.set_error
     let b6 := b5.set_error
     let b7 := b6.set_error
     b1.get_current_duration = 1 ∧ b2.get_current_duration = 2 ∧
     b3.get_current_duration = 4 ∧ b4.get_current_duration = 8 ∧
     b5.get_current_duration = 16 ∧ b6.get_current_duration = 20 ∧
     b7.get_current_duration = 20 ∧
     b7.set_success.get_current_duration = 10 ∧
     b7.set_success.get_is_error = false) := by
  refine ⟨?_, ?_, ?_, ?_, ?_, ?_⟩
  · intro base fe me; exact ⟨rfl, rfl⟩
  · intro b h
    simp [ExponentialBackoff.set_error, ExponentialBackoff.get_current_duration, h]
  · intro b h
    simp [ExponentialBackoff.set_error, ExponentialBackoff.get_current_duration, h]
  · intro b h
    simp [ExponentialBackoff.set_success, ExponentialBackoff.get_current_duration, h]
  · intro b h
    simp [ExponentialBackoff.set_success, h]
  · decide

/-- **C6.** `parse_next_event` returns the title and start time of the first
event encountered and ignores everything after the first `END:VEVENT` line;
an empty or event-less feed yields `None` (an `Ok`, not an error); a
`DTSTART` line whose value does not match the timestamp grammar yields an
error whose message contains `"timestamp parsing error"`. -/
theorem c6_parse_next_event :
    (∀ (acc : Option CalendarEvent) (pre post post' : List String),
      parseNextEventGo acc (pre ++ "END:VEVENT" :: post) =
        parseNextEventGo acc (pre ++ "END:VEVENT" :: post')) ∧
    parse_next_event [] = Except.ok none ∧
    (∀ lines : List String,
      (∀ l ∈ lines, hasTag "SUMMARY:" l = false ∧ hasTag "DTSTART:" l = false) →
      parse_next_event lines = Except.ok none) ∧
    (∀ (junk1 junk2 rest : List String) (title ts : String)
       (y mo d h mi s : Nat) (t : Timestamp),
      (∀ l ∈ junk1, l ≠ "END:VEVENT" ∧ hasTag "SUMMARY:" l = false ∧
        hasTag "DTSTART:" l = false) →
      (∀ l ∈ junk2, l ≠ "END:VEVENT" ∧ hasTag "SUMMARY:" l = false ∧
        hasTag "DTSTART:" l = false) →
      parseDateTimeFields false ts = some (y, mo, d, h, mi, s) →
      dateTimeToTs y mo d h mi s = some t →
      parse_next_event
          (junk1 ++ (("SUMMARY:" ++ title) ::
            (junk2 ++ (("DTSTART:" ++ ts) :: "END:VEVENT" :: rest)))) =
        Except.ok (some { event_title := title, event_start := some t })) ∧
    (∀ (acc : Option CalendarEvent) (ts : String) (rest : List String),
      parseDateTimeFields false ts = none →
      parseNextEventGo acc (("DTSTART:" ++ ts) :: rest) =
        Except.error (chronoParseErrMsg ts) ∧
      List.IsInfix "timestamp parsing error".data (chronoParseErrMsg ts).data) := by
  refine ⟨?_, rfl, ?_, ?_, ?_⟩
  · intro acc pre post post'
    exact parseNextEventGo_stops pre acc post post'
  · intro lines h
    exact parseNextEventGo_no_props lines none h
  · intro junk1 junk2 rest title ts y mo d h mi s t h1 h2 hp ht
    rw [parse_next_event, parseNextEventGo_junk_list junk1 _ _ h1,
      parseNextEventGo_summary _ _ _ (summaryLine_ne_end title) (hasTag_self_append _ _),
      afterTag_self_append, parseNextEventGo_junk_list junk2 _ _ h2,
      parseNextEventGo_dtstart _ _ _ y mo d h mi s t (dtstartLine_ne_end ts)
        (hasTag_summary_of_dtstart ts) (hasTag_self_append _ _)
        (by rw [afterTag_self_append]; exact hp) ht,
      parseNextEventGo_end]
    rfl
  · intro acc ts rest hp
    refine ⟨?_, ?_⟩
    · rw [parseNextEventGo_dtstart_bad _ _ _ (dtstartLine_ne_end ts)
        (hasTag_summary_of_dtstart ts) (hasTag_self_append _ _)
        (by rw [afterTag_self_append]; exact hp), afterTag_self_append]
    · refine ⟨"ICS ".data, " parsing '".data ++ ts.data ++ "'".data, ?_⟩
      simp only [chronoParseErrMsg, String.data_append, List.append_assoc]
      rw [← List.append_assoc "ICS ".data, ← List.append_assoc]
      congr 1

/-- Witness for C6: the hypothesis-bearing conjuncts evaluated on the repo's
own calendar test feed (title `Test event`, start 2024-07-20T11:00:00Z,
Unix 1721473200) and on the malformed `DTSTART:20240732T110000Z` (day 32). -/
theorem c6_parse_next_event_witness :
    parse_next_event
        ["BEGIN:VCALENDAR", "BEGIN:VEVENT", "SUMMARY:" ++ "Test event",
          "STATUS:CONFIRMED", "DTSTART:" ++ "20240720T110000Z",
          "END:VEVENT", "SUMMARY:Test next event"] =
      Except.ok (some { event_title := "Test event",
                        event_start := some { seconds := 1721473200 } }) ∧
    parse_next_event ["junk"] = Except.ok none ∧
    parseNextEventGo none (("DTSTART:" ++ "20240732T110000Z") :: []) =
      Except.error (chronoParseErrMsg "20240732T110000Z") := by
  refine ⟨?_, ?_, ?_⟩
  · exact c6_parse_next_event.2.2.2.1 ["BEGIN:VCALENDAR", "BEGIN:VEVENT"]
      ["STATUS:CONFIRMED"] ["SUMMARY:Test next event"] "Test event"
      "20240720T110000Z" 2024 7 20 11 0 0 { seconds := 1721473200 }
      (by decide) (by decide) (by decide) (by decide)
  · exact c6_parse_next_event.2.2.1 ["junk"] (by decide)
  · exact (c6_parse_next_event.2.2.2.2 none "20240732T110000Z" [] (by decide)).1

/-- **C7 counterexample.** The claim requires every extracted record to carry
a non-negative amount, but `extract_debt` accepts any text node that parses
as a float: an element whose nodes are `"X gives "`, `"-5"`, `" to Y"` is
validly extracted with the strictly negative amount `-5`. -/
theorem c7_counterexample :
    extract_debts [["X gives ", "-5", " to Y"]] =
      Except.ok [{ who := "X", how_much := mkRat (-5) 1, whom := "Y" }] ∧
    ({ who := "X", how_much := mkRat (-5) 1, whom := "Y" } : KittyDebt).how_much < 0 := by
  exact ⟨by decide, by decide⟩

/-- **C7 (amended).** For every selected element list, a successful
`extract_debts` call returns exactly one record per element from which a
debt is validly extracted, each with non-empty payer and payee names (the
amount is whatever float parsed, possibly negative); the call fails exactly
when the list of successfully extracted records is empty. -/
theorem c7_extract_debts :
    (∀ (elements : List (List String)) (l : List KittyDebt),
      extract_debts elements = Except.ok l →
      l = elements.filterMap (fun t => (extract_debt t).toOption) ∧
      l.length = elements.countP (fun e => (extract_debt e).isOk) ∧
      ∀ d ∈ l, d.who ≠ "" ∧ d.whom ≠ "") ∧
    (∀ elements : List (List String),
      (∃ msg, extract_debts elements = Except.error msg) ↔
      elements.filterMap (fun t => (extract_debt t).toOption) = []) := by
  constructor
  · intro elements l h
    simp only [extract_debts] at h
    split at h
    · exact absurd h (by simp)
    · next hne =>
      cases h
      refine ⟨rfl, length_filterMap_toOption elements, ?_⟩
      intro d hd
      rw [List.mem_filterMap] at hd
      obtain ⟨e, _, he⟩ := hd
      cases hx : extract_debt e with
      | ok d' =>
        rw [hx] at he
        cases he
        exact extract_debt_ok_names e d hx
      | error s => rw [hx] at he; exact absurd he (by simp [Except.toOption])
  · intro elements
    unfold extract_debts
    cases h : (elements.filterMap fun t => (extract_debt t).toOption).isEmpty with
    | true =>
      simp only [h, if_true]
      exact ⟨fun _ => List.isEmpty_iff.mp h, fun _ => ⟨_, rfl⟩⟩
    | false =>
      simp only [h, if_false]
      constructor
      · rintro ⟨msg, hmsg⟩; exact absurd hmsg (by simp)
      · intro he; exact absurd (List.isEmpty_iff.mpr he) (by rw [h]; exact Bool.false_ne_true)

/-- Witness for C7: the amended theorem applied to the repo's own test
element (`Sid gives CHF 72.50 to Moses`). -/
theorem c7_extract_debts_witness :
    ([{ who := "Sid", how_much := mkRat 145 2, whom := "Moses" }] :
        List KittyDebt) =
      [["\n            Sid gives ", "CHF", "72.50", " to Moses\n        "]].filterMap
        (fun t => (extract_debt t).toOption) ∧
    (∃ msg, extract_debts ([[]] : List (List String)) = Except.error msg) := by
  constructor
  · exact (c7_extract_debts.1
      [["\n            Sid gives ", "CHF", "72.50", " to Moses\n        "]]
      [{ who := "Sid", how_much := mkRat 145 2, whom := "Moses" }] (by decide)).1
  · exact (c7_extract_debts.2 [[]]).mpr (by decide)

/-- Witness for C4: the hypotheses of the mode-conditioned conjuncts are
discharged for the concrete backoff `new 10 1 20` and its first error state. -/
theorem c4_exponential_backoff_witness :
    ((ExponentialBackoff.new 10 1 20).set_error.is_error = true ∧
      (ExponentialBackoff.new 10 1 20).set_error.get_current_duration = 1) ∧
    (ExponentialBackoff.new 10 1 20).set_error.set_error.get_current_duration =
      min ((ExponentialBackoff.new 10 1 20).set_error.current_duration * 2) 20 ∧
    (ExponentialBackoff.new 10 1 20).set_error.set_success.is_error = false ∧
    (ExponentialBackoff.new 10 1 20).set_success = ExponentialBackoff.new 10 1 20 := by
  refine ⟨c4_exponential_backoff.2.1 _ (by decide), ?_, ?_, ?_⟩
  · exact (c4_exponential_backoff.2.2.1 _ (by decide)).2
  · exact (c4_exponential_backoff.2.2.2.1 _ (by decide)).1
  · exact c4_exponential_backoff.2.2.2.2.1 _ (by decide)

/-- **C8.** For every transport configuration and instant, the serialized
OJP request is the fixed template with the formatted instant substituted in
exactly three slots and the stop identifier in one slot; the `Z`-suffixed
instant occurs exactly three times in the body (each `Z` character of the
output terminates one of the three timestamp slots); the body is a
deterministic function of the stop identifier and the instant alone; and on
the repository's own test vector it reproduces the expected XML
byte-for-byte. -/
theorem c8_create_ojp_request :
    (∀ (cfg : TransportConfig) (now : OjpInstant),
      create_ojp_request cfg now =
        ojpPart1 ++ formatOjpInstant now ++ ojpPart2 ++ formatOjpInstant now ++
          ojpPart3 ++ natToStr cfg.stop_id ++ ojpPart4 ++ formatOjpInstant now ++
          ojpPart5) ∧
    (∀ (cfg cfg' : TransportConfig) (now : OjpInstant), cfg.stop_id = cfg'.stop_id →
      create_ojp_request cfg now = create_ojp_request cfg' now) ∧
    (∀ (cfg : TransportConfig) (now : OjpInstant),
      (create_ojp_request cfg now).data.count 'Z' = 3) ∧
    create_ojp_request { stop_id := 123 } ⟨2024, 7, 26, 9, 42, 9, 123⟩ =
      ojpGoldenRequest := by
  refine ⟨fun cfg now => rfl, ?_, ?_, create_ojp_request_golden⟩
  · intro cfg cfg' now h
    unfold create_ojp_request
    rw [h]
  · intro cfg now
    unfold create_ojp_request
    simp only [String.data_append, List.count_append]
    rw [count_z_formatOjpInstant, count_z_natToStr]
    decide

/-- **C5 counterexample.** With `now` at Unix second 1000 (monotonic instant
0) and a single extracted departure at second 1030 — within one minute of
now — the claim prescribes a poll exactly one minute from now (instant 60);
the code schedules `departure − now + offset = 31` seconds from now.  The
one-minute clamp only triggers for departures in the past. -/
theorem c5_counterexample :
    (set_next_update_time
        [{ destination_enum := DestinationEnum.FLON,
           departure_time := some { seconds := 1030 } }] 0 1000).2 = 31 ∧
    (31 : Nat) ≠ 0 + 60 := by
  refine ⟨?_, by decide⟩
  rw [set_next_update_time, sortDepartures_singleton]
  decide

/-- **C5 (amended).** In `Real` mode after a successful fetch the stored
vector is the fetch result sorted by departure time, whose head is the
earliest extracted departure; if no (timestamped) departure was found, or
the earliest departure lies a minute or more in the past, the next poll is
ten minutes from now; if it lies less than one minute in the past, the next
poll is exactly one minute from now; otherwise (now or in the future) the
next poll is the departure time plus a one-second offset.  A planned update
time already in the past when the scheduler asks is replaced by the
ten-minute default. -/
theorem c5_next_poll_schedule :
    (∀ (deps : List Departure) (now_i : Nat) (now_utc : Int),
      (set_next_update_time deps now_i now_utc).1 = sortDepartures deps) ∧
    (∀ (deps : List Departure) (d0 : Departure),
      (sortDepartures deps).head? = some d0 →
      ∀ d ∈ deps, departureSortKey d0 ≤ departureSortKey d) ∧
    (∀ (deps : List Departure) (now_i : Nat) (now_utc : Int),
      (sortDepartures deps).head? = none →
      (set_next_update_time deps now_i now_utc).2 = now_i + 600) ∧
    (∀ (deps : List Departure) (now_i : Nat) (now_utc : Int) (d0 : Departure),
      (sortDepartures deps).head? = some d0 → d0.departure_time = none →
      (set_next_update_time deps now_i now_utc).2 = now_i + 600) ∧
    (∀ (deps : List Departure) (now_i : Nat) (now_utc : Int) (d0 : Departure)
       (ts : Timestamp),
      (sortDepartures deps).head? = some d0 → d0.departure_time = some ts →
      (ts.seconds - now_utc ≤ -60 →
        (set_next_update_time deps now_i now_utc).2 = now_i + 600) ∧
      (-60 < ts.seconds - now_utc → ts.seconds - now_utc < 0 →
        (set_next_update_time deps now_i now_utc).2 = now_i + 60) ∧
      (0 ≤ ts.seconds - now_utc →
        (set_next_update_time deps now_i now_utc).2 =
          now_i + (ts.seconds - now_utc).toNat + 1)) ∧
    (∀ transport_next_update now_i : Nat, transport_next_update < now_i →
      get_next_update_time_real transport_next_update now_i = now_i + 600) ∧
    (∀ transport_next_update now_i : Nat, ¬transport_next_update < now_i →
      get_next_update_time_real transport_next_update now_i = transport_next_update) := by
  refine ⟨set_next_update_time_fst, sortDepartures_head_min, ?_, ?_, ?_, ?_, ?_⟩
  · intro deps now_i now_utc h
    simp [set_next_update_time, get_duration_to_next_departure, h,
      get_default_next_update_time]
  · intro deps now_i now_utc d0 h ht
    simp [set_next_update_time, get_duration_to_next_departure, h, ht,
      get_default_next_update_time]
  · intro deps now_i now_utc d0 ts h ht
    refine ⟨?_, ?_, ?_⟩
    · intro hpast
      rw [set_next_update_time]
      simp only [get_duration_to_next_departure, h, ht]
      rw [if_neg (by omega), if_neg (by omega)]
      rfl
    · intro hlo hhi
      rw [set_next_update_time]
      simp only [get_duration_to_next_departure, h, ht]
      rw [if_pos (by omega)]
    · intro hfut
      rw [set_next_update_time]
      simp only [get_duration_to_next_departure, h, ht]
      rw [if_neg (by omega), if_pos (by omega)]
  · intro nxt now_i h
    simp [get_next_update_time_real, h, get_default_next_update_time]
  · intro nxt now_i h
    simp [get_next_update_time_real, h]

/-- Witness for C5: the amended schedule evaluated on concrete fetches —
no departures at instant 5, a departure 30 s in the past, one 100 s in the
past, and one 30 s in the future. -/
theorem c5_next_poll_schedule_witness :
    (set_next_update_time [] 5 1000).2 = 5 + 600 ∧
    (set_next_update_time
        [{ destination_enum := DestinationEnum.FLON,
           departure_time := some { seconds := 970 } }] 0 1000).2 = 0 + 60 ∧
    (set_next_update_time
        [{ destination_enum := DestinationEnum.FLON,
           departure_time := some { seconds := 900 } }] 0 1000).2 = 0 + 600 ∧
    (set_next_update_time
        [{ destination_enum := DestinationEnum.FLON,
           departure_time := some { seconds := 1030 } }] 0 1000).2 =
      0 + ((1030 : Int) - 1000).toNat + 1 ∧
    get_next_update_time_real 3 10 = 10 + 600 := by
  refine ⟨?_, ?_, ?_, ?_, ?_⟩
  · exact c5_next_poll_schedule.2.2.1 [] 5 1000 (by rw [sortDepartures_nil]; rfl)
  · exact (c5_next_poll_schedule.2.2.2.2.1 _ 0 1000
      { destination_enum := DestinationEnum.FLON,
        departure_time := some { seconds := 970 } } { seconds := 970 }
      (by rw [sortDepartures_singleton]; rfl) rfl).2.1 (by decide) (by decide)
  · exact (c5_next_poll_schedule.2.2.2.2.1 _ 0 1000
      { destination_enum := DestinationEnum.FLON,
        departure_time := some { seconds := 900 } } { seconds := 900 }
      (by rw [sortDepartures_singleton]; rfl) rfl).1 (by decide)
  · exact (c5_next_poll_schedule.2.2.2.2.1 _ 0 1000
      { destination_enum := DestinationEnum.FLON,
        departure_time := some { seconds := 1030 } } { seconds := 1030 }
      (by rw [sortDepartures_singleton]; rfl) rfl).2.2 (by decide)
  · exact c5_next_poll_schedule.2.2.2.2.2.1 3 10 (by decide)

/-- **C1 counterexample.** A failed Kitty fetch in `Real` mode does not
leave `kitty_debts` untouched: the stale record is replaced by the empty
vector, and the snapshot's error flag stays `false` (the Kitty updater's
write-back path carries no error flag at all). -/
theorem c1_counterexample :
    (kittyUpdateReal (Except.error "connection error")
        { kitty_debts := [{ who := "A", how_much := mkRat 1 1, whom := "B" }] }).kitty_debts
      = [] ∧
    (kittyUpdateReal (Except.error "connection error")
        { kitty_debts := [{ who := "A", how_much := mkRat 1 1, whom := "B" }] }).kitty_debts
      ≠ ({ kitty_debts := [{ who := "A", how_much := mkRat 1 1, whom := "B" }] }
          : ScreenContentReply).kitty_debts ∧
    (kittyUpdateReal (Except.error "connection error")
        { kitty_debts := [{ who := "A", how_much := mkRat 1 1, whom := "B" }] }).error
      = false := by
  exact ⟨rfl, by decide, rfl⟩

/-- **C1 (amended).** On a failed fetch in `Real` mode the Kitty and
Transit updaters replace their Content Store field with the empty vector
and touch no error flag (Transit additionally resets its next poll to the
ten-minute default); the Calendar updater sets the shared error bit and
replaces its field with `None`.  On success each updater replaces its field
with the fetched data (Calendar clearing the error bit).  Stale data is
never preserved across a failed poll. -/
theorem c1_update_failure_semantics :
    (∀ (e : String) (content : ScreenContentReply),
      kittyUpdateReal (Except.error e) content = { content with kitty_debts := [] }) ∧
    (∀ (d : List KittyDebt) (content : ScreenContentReply),
      kittyUpdateReal (Except.ok d) content = { content with kitty_debts := d }) ∧
    (∀ (e : String) (now_i : Nat) (now_utc : Int) (content : ScreenContentReply),
      transportUpdateReal (Except.error e) now_i now_utc content =
        ({ content with bus_departures := [] }, now_i + 600)) ∧
    (∀ (deps : List Departure) (now_i : Nat) (now_utc : Int)
       (content : ScreenContentReply),
      transportUpdateReal (Except.ok deps) now_i now_utc content =
        ({ content with bus_departures := sortDepartures deps },
          (set_next_update_time deps now_i now_utc).2)) ∧
    (∀ (e : String) (content : ScreenContentReply) (b : Bool),
      gcalUpdateReal (Except.error e) content b =
        ({ content with next_upcoming_event := none }, true)) ∧
    (∀ (ev : Option CalendarEvent) (content : ScreenContentReply) (b : Bool),
      gcalUpdateReal (Except.ok ev) content b =
        ({ content with next_upcoming_event := ev }, false)) := by
  refine ⟨fun e c => rfl, fun d c => rfl, fun e ni nu c => rfl, ?_, fun e c b => rfl,
    fun ev c b => rfl⟩
  intro deps now_i now_utc content
  rw [transportUpdateReal, ← set_next_update_time_fst deps now_i now_utc]

/-- **C10.** `get_screen_hash` never returns an error status: every reply is
`Ok`; when the internal hash computation fails (poisoned lock), the reply
carries the sentinel `hash = 0`; otherwise it carries the snapshot hash. -/
theorem c10_get_screen_hash_total :
    (∀ c : Container, ∃ r, get_screen_hash c = Except.ok r) ∧
    (∀ c : Container, c.poisoned = true →
      (get_hash c).isOk = false ∧ get_screen_hash c = Except.ok { hash := 0 }) ∧
    (∀ c : Container, (get_hash c).isOk = false →
      get_screen_hash c = Except.ok { hash := 0 }) ∧
    (∀ c : Container, c.poisoned = false →
      get_screen_hash c =
        Except.ok { hash := defaultHasherOfBytes (encodeContent c.content) }) := by
  refine ⟨fun c => ⟨_, rfl⟩, ?_, ?_, ?_⟩
  · intro c h
    constructor
    · simp [get_hash, h, Except.isOk, Except.toBool]
    · simp [get_screen_hash, get_hash, h]
  · intro c h
    rw [get_screen_hash]
    cases hg : get_hash c with
    | ok v => rw [hg] at h; exact absurd h (by simp [Except.isOk, Except.toBool])
    | error e => rfl
  · intro c h
    simp [get_screen_hash, get_hash, h]

/-- Witness for C10: the hypotheses discharged on a concrete poisoned and a
concrete healthy container. -/
theorem c10_get_screen_hash_total_witness :
    get_screen_hash { content := {}, poisoned := true } = Except.ok { hash := 0 } ∧
    get_screen_hash { content := {}, poisoned := false } =
      Except.ok { hash := defaultHasherOfBytes (encodeContent {}) } := by
  constructor
  · exact (c10_get_screen_hash_total.2.1 _ rfl).2
  · exact c10_get_screen_hash_total.2.2.2 _ rfl

/-- **C2 counterexample.** `get_hash` never reads the wall clock: it hashes
the stored snapshot as-is.  With stored time 10:00 the code's hash equals
the claim's algorithm only at wall clock 10:00; at wall clock 10:05 the
claim's algorithm (overwrite the time field, then serialize and hash)
prescribes a different 64-bit value than the code returns. -/
theorem c2_counterexample :
    get_hash { content := { now := some { hours := 10, minutes := 0 } } } =
      Except.ok (defaultHasherOfBytes
        (encodeContent { now := some { hours := 10, minutes := 0 } })) ∧
    specGetHash { now := some { hours := 10, minutes := 0 } } 10 0 =
      defaultHasherOfBytes
        (encodeContent { now := some { hours := 10, minutes := 0 } }) ∧
    specGetHash { now := some { hours := 10, minutes := 0 } } 10 5 ≠
      defaultHasherOfBytes
        (encodeContent { now := some { hours := 10, minutes := 0 } }) := by
  exact ⟨by decide, by decide, by decide⟩

/-- **C2 (amended).** The hash query serializes the stored snapshot
unchanged — its time field being whatever the separate clock-updater task
last wrote — and hashes the bytes; it does not consult the wall clock.
Snapshots whose stored time fields differ (for example by one minute)
serialize to different bytes, and on the concrete pair 10:00 / 10:05 to
different hashes; two calls with no intervening store mutation hash the
same bytes. -/
theorem c2_hash_of_stored_snapshot :
    (∀ c : ScreenContentReply,
      get_hash { content := c } =
        Except.ok (defaultHasherOfBytes (encodeContent c))) ∧
    (∀ (c : ScreenContentReply) (h m h' m' : Nat),
      h < 128 → m < 128 → h' < 128 → m' < 128 → (h, m) ≠ (h', m') →
      encodeContent { c with now := some { hours := h, minutes := m } } ≠
        encodeContent { c with now := some { hours := h', minutes := m' } }) ∧
    defaultHasherOfBytes (encodeContent { now := some { hours := 10, minutes := 0 } }) ≠
      defaultHasherOfBytes (encodeContent { now := some { hours := 10, minutes := 5 } }) ∧
    (∀ (content : ScreenContentReply) (h1 m1 : Nat),
      specGetHash content h1 m1 =
        defaultHasherOfBytes
          (encodeContent { content with now := some { hours := h1, minutes := m1 } })) := by
  refine ⟨fun c => rfl, ?_, by decide, fun content h1 m1 => rfl⟩
  intro c h m h' m' hh hm hh' hm' hne
  exact encodeContent_now_inj c h m h' m' hh hm hh' hm' hne

/-- Witness for C2: the serialization-injectivity conjunct applied at the
stored times 10:00 and 10:05 of the default snapshot. -/
theorem c2_hash_of_stored_snapshot_witness :
    encodeContent
        ({ now := some { hours := 10, minutes := 0 } } : ScreenContentReply) ≠
      encodeContent
        ({ now := some { hours := 10, minutes := 5 } } : ScreenContentReply) := by
  exact c2_hash_of_stored_snapshot.2.1 {} 10 0 10 5 (by decide) (by decide)
    (by decide) (by decide) (by decide)

/-- Witness for C8: the determinism conjunct applied to two configurations
sharing stop ID 123 but differing in URL and key. -/
theorem c8_create_ojp_request_witness :
    create_ojp_request { stop_id := 123, url := "https://a", api_key := "k1" }
        ⟨2024, 7, 26, 9, 42, 9, 123⟩ =
      create_ojp_request { stop_id := 123, url := "https://b", api_key := "k2" }
        ⟨2024, 7, 26, 9, 42, 9, 123⟩ :=
  c8_create_ojp_request.2.1 _ _ _ rfl

/-- **C3.** Every successful extraction carries at most one departure per
logical destination (pairwise distinct destination enums); over a stream
of complete `StopEventResult` blocks the stored departure time of each
destination is the earliest-wins fold of the candidate times of the blocks
resolving to it — in particular the minimum of those candidates; and in a
block carrying both a `TimetabledTime` and a later `EstimatedTime`, the
estimated time is the one retained for the entry. -/
theorem c3_earliest_departure_per_destination :
    (∀ (events : List XEvent) (cfg : TransportConfig) (res : List Departure),
       extract_departures events cfg = Except.ok res →
       res.Pairwise (fun d1 d2 => d1.destination_enum ≠ d2.destination_enum)) ∧
    (∀ (cfg : TransportConfig) (pairs : List ((String × String) × (Timestamp × Nat))),
       (∀ p ∈ pairs, get_time p.1.1 = Except.ok p.2.1 ∧ parseU32 p.1.2 = some p.2.2) →
       extract_departures (blocksOf pairs) cfg =
         Except.ok (finishDepartures
           (departuresOfPairs cfg.destination_points (pairs.map Prod.snd))) ∧
       ∀ en : DestinationEnum,
         mapGetSeconds (departuresOfPairs cfg.destination_points (pairs.map Prod.snd)) en =
           (candSeconds cfg.destination_points (pairs.map Prod.snd) en).foldl stepMin none ∧
         ∀ y : Int,
           mapGetSeconds (departuresOfPairs cfg.destination_points (pairs.map Prod.snd)) en =
             some y →
           y ∈ candSeconds cfg.destination_points (pairs.map Prod.snd) en ∧
           ∀ x ∈ candSeconds cfg.destination_points (pairs.map Prod.snd) en, y ≤ x) ∧
    (∀ (cfg : TransportConfig) (tt et idStr : String) (ts1 ts2 : Timestamp) (id : Nat),
       get_time tt = Except.ok ts1 → get_time et = Except.ok ts2 →
       parseU32 idStr = some id →
       extract_departures (mkStopEventBlockTTET tt et idStr) cfg =
         Except.ok (finishDepartures (processStopEvent cfg.destination_points id ts2 []))) := by
  refine ⟨?_, ?_, ?_⟩
  · intro events cfg res hok
    rw [extract_departures] at hok
    exact extractGo_ok_pairwise cfg events.length {} [] events
      ⟨fun p hp => absurd hp (List.not_mem_nil p), by simp [mapKeys]⟩ res hok
  · intro cfg pairs h
    constructor
    · rw [extract_departures, blocksOf_length, departuresOfPairs]
      exact extractGo_blocksOf cfg pairs h _ _ _ (by omega)
    · intro en
      refine ⟨mapGetSeconds_departuresOfPairs _ _ _, ?_⟩
      intro y hy
      rw [mapGetSeconds_departuresOfPairs] at hy
      have hne : candSeconds cfg.destination_points (pairs.map Prod.snd) en ≠ [] := by
        intro hnil
        rw [hnil] at hy
        simp at hy
      obtain ⟨y', h1, h2, h3⟩ := foldl_stepMin_min _ hne
      rw [h1] at hy
      cases Option.some.inj hy
      exact ⟨h2, h3⟩
  · intro cfg tt et idStr ts1 ts2 id h1 h2 hid
    have h8 := extractGo_blockTTET cfg 3 {} [] tt et idStr ts1 ts2 id [] h1 h2 hid
    rw [List.append_nil] at h8
    rw [extract_departures]
    have hlen : (mkStopEventBlockTTET tt et idStr).length = 3 + 8 := rfl
    rw [hlen, h8, extractGo_nil]

/-- Witness for C3: the repo's own test destinations (RENENS owning stops
234 and 345, FLON owning 456) with two blocks resolving to FLON at
11:04:00 and 11:14:00 — the extraction keeps only the earlier one — and a
TT+ET block resolving to RENENS where the 11:02:30 estimate overrides the
11:02:00 timetable. -/
theorem c3_earliest_departure_per_destination_witness :
    extract_departures
        (blocksOf [(("2024-07-23T11:04:00Z", "456"), (⟨1721732640, 0⟩, 456)),
                   (("2024-07-23T11:14:00Z", "456"), (⟨1721733240, 0⟩, 456))])
        { destination_points := [⟨[234, 345], "RENENS"⟩, ⟨[456], "FLON"⟩] } =
      Except.ok [{ destination_enum := DestinationEnum.FLON,
                   departure_time := some ⟨1721732640, 0⟩ }] ∧
    List.Pairwise (fun d1 d2 => d1.destination_enum ≠ d2.destination_enum)
      [({ destination_enum := DestinationEnum.FLON,
          departure_time := some ⟨1721732640, 0⟩ } : Departure)] ∧
    (1721732640 : Int) ∈
      candSeconds [⟨[234, 345], "RENENS"⟩, ⟨[456], "FLON"⟩]
        [(⟨1721732640, 0⟩, 456), (⟨1721733240, 0⟩, 456)] DestinationEnum.FLON ∧
    (∀ x ∈ candSeconds [⟨[234, 345], "RENENS"⟩, ⟨[456], "FLON"⟩]
        [(⟨1721732640, 0⟩, 456), (⟨1721733240, 0⟩, 456)] DestinationEnum.FLON,
      (1721732640 : Int) ≤ x) ∧
    extract_departures
        (mkStopEventBlockTTET "2024-07-23T11:02:00Z" "2024-07-23T11:02:30Z" "345")
        { destination_points := [⟨[234, 345], "RENENS"⟩, ⟨[456], "FLON"⟩] } =
      Except.ok [{ destination_enum := DestinationEnum.RENENS,
                   departure_time := some ⟨1721732550, 0⟩ }] := by
  have h := c3_earliest_departure_per_destination
  refine ⟨?_, ?_, ?_, ?_, ?_⟩
  · exact (h.2.1 { destination_points := [⟨[234, 345], "RENENS"⟩, ⟨[456], "FLON"⟩] }
      [(("2024-07-23T11:04:00Z", "456"), (⟨1721732640, 0⟩, 456)),
       (("2024-07-23T11:14:00Z", "456"), (⟨1721733240, 0⟩, 456))]
      (by decide)).1.trans (by decide)
  · exact h.1 (blocksOf [(("2024-07-23T11:04:00Z", "456"), (⟨1721732640, 0⟩, 456)),
        (("2024-07-23T11:14:00Z", "456"), (⟨1721733240, 0⟩, 456))])
      { destination_points := [⟨[234, 345], "RENENS"⟩, ⟨[456], "FLON"⟩] } _ (by decide)
  · simpa using (((h.2.1 { destination_points := [⟨[234, 345], "RENENS"⟩, ⟨[456], "FLON"⟩] }
      [(("2024-07-23T11:04:00Z", "456"), (⟨1721732640, 0⟩, 456)),
       (("2024-07-23T11:14:00Z", "456"), (⟨1721733240, 0⟩, 456))]
      (by decide)).2 DestinationEnum.FLON).2 1721732640 (by decide)).1
  · simpa using (((h.2.1 { destination_points := [⟨[234, 345], "RENENS"⟩, ⟨[456], "FLON"⟩] }
      [(("2024-07-23T11:04:00Z", "456"), (⟨1721732640, 0⟩, 456)),
       (("2024-07-23T11:14:00Z", "456"), (⟨1721733240, 0⟩, 456))]
      (by decide)).2 DestinationEnum.FLON).2 1721732640 (by decide)).2
  · exact (h.2.2 { destination_points := [⟨[234, 345], "RENENS"⟩, ⟨[456], "FLON"⟩] }
      "2024-07-23T11:02:00Z" "2024-07-23T11:02:30Z" "345"
      ⟨1721732520, 0⟩ ⟨1721732550, 0⟩ 345
      (by decide) (by decide) (by decide)).trans (by decide)

/-- **C9.** The extraction loop never fails on an XML reader error or an
unparseable destination stop ID: both stop the loop and return `Ok` with
the departures collected so far; every error it does return is the
propagated timestamp-parse failure of a text node directly under a
`TimetabledTime` or `EstimatedTime` start tag, and any such text node
reached does produce that error. -/
theorem c9_error_only_from_time_parse :
    (∀ (cfg : TransportConfig) (f : Nat) (b : DepartureBuilder) (m : DepartureMap)
       (rest : List XEvent),
       extractGo cfg (f + 1) b m (XEvent.readErr :: rest) =
         Except.ok (finishDepartures m)) ∧
    (∀ (cfg : TransportConfig) (f : Nat) (b : DepartureBuilder) (m : DepartureMap)
       (t : String) (rest : List XEvent), parseU32 t = none →
       extractGo cfg (f + 1) b m
           (XEvent.start "ojp:DestinationStopPointRef" :: XEvent.text t :: rest) =
         Except.ok (finishDepartures m)) ∧
    (∀ (events : List XEvent) (cfg : TransportConfig) (e : String),
       extract_departures events cfg = Except.error e →
       ∃ name t, (name = "ojp:TimetabledTime" ∨ name = "ojp:EstimatedTime") ∧
         get_time t = Except.error e ∧
         [XEvent.start name, XEvent.text t] <:+: events) ∧
    (∀ (cfg : TransportConfig) (f : Nat) (b : DepartureBuilder) (m : DepartureMap)
       (name t : String) (rest : List XEvent) (e : String),
       (name = "ojp:TimetabledTime" ∨ name = "ojp:EstimatedTime") →
       get_time t = Except.error e →
       extractGo cfg (f + 1) b m (XEvent.start name :: XEvent.text t :: rest) =
         Except.error e) := by
  refine ⟨?_, ?_, ?_, ?_⟩
  · intro cfg f b m rest
    simp [extractGo]
  · intro cfg f b m t rest h
    simp [extractGo, h]
  · intro events cfg e h
    rw [extract_departures] at h
    exact extractGo_error_source cfg events.length {} [] events e h
  · intro cfg f b m name t rest e hname herr
    rcases hname with h | h <;> subst h <;> simp [extractGo, herr]

/-- Witness for C9: a reader error after one collected FLON departure
keeps that departure; the unparseable stop ID `"abc"` ends the loop with
`Ok`; the stream whose `TimetabledTime` text is `"bad"` errors with the
timestamp-parse message, and that error is located at its text node. -/
theorem c9_error_only_from_time_parse_witness :
    extractGo { destination_points := [⟨[456], "FLON"⟩] } (0 + 1) {}
        [(DestinationEnum.FLON,
          { destination_enum := DestinationEnum.FLON,
            departure_time := some ⟨1721732640, 0⟩ })]
        [XEvent.readErr] =
      Except.ok [{ destination_enum := DestinationEnum.FLON,
                   departure_time := some ⟨1721732640, 0⟩ }] ∧
    extractGo { destination_points := [⟨[456], "FLON"⟩] } (0 + 1) {} []
        [XEvent.start "ojp:DestinationStopPointRef", XEvent.text "abc"] =
      Except.ok [] ∧
    (∃ name t, (name = "ojp:TimetabledTime" ∨ name = "ojp:EstimatedTime") ∧
       get_time t = Except.error (chronoParseErrMsg "bad") ∧
       [XEvent.start name, XEvent.text t] <:+:
         [XEvent.start "ojp:TimetabledTime", XEvent.text "bad"]) ∧
    extractGo { destination_points := [⟨[456], "FLON"⟩] } (0 + 1) {} []
        [XEvent.start "ojp:EstimatedTime", XEvent.text "bad"] =
      Except.error (chronoParseErrMsg "bad") := by
  have h := c9_error_only_from_time_parse
  refine ⟨?_, ?_, ?_, ?_⟩
  · exact h.1 { destination_points := [⟨[456], "FLON"⟩] } 0 {}
      [(DestinationEnum.FLON,
        { destination_enum := DestinationEnum.FLON,
          departure_time := some ⟨1721732640, 0⟩ })] []
  · exact h.2.1 { destination_points := [⟨[456], "FLON"⟩] } 0 {} [] "abc" [] (by decide)
  · exact h.2.2.1 [XEvent.start "ojp:TimetabledTime", XEvent.text "bad"]
      { destination_points := [⟨[456], "FLON"⟩] } (chronoParseErrMsg "bad") (by decide)
  · exact h.2.2.2 { destination_points := [⟨[456], "FLON"⟩] } 0 {} []
      "ojp:EstimatedTime" "bad" [] (chronoParseErrMsg "bad") (Or.inr rfl) (by decide)

end RpiScreenClaims
